import Mathlib

/-
Verification development for the AutomationAgent repository
(src/lib/automation_agent.py and src/lib/dataset_processor.py).

The Python source is shallowly embedded below.  Python dicts with a fixed
key set become structures; dict fields that may be absent become Option
fields; Python `None` also becomes `none`.  The job registry (a dict with
monotonically increasing integer keys, insertion ordered) becomes an
association list `List (Nat × Job)`.  Machine times are modelled as `Int`
seconds (the source truncates float differences with `int(...)`).
Filesystem and network effects are passed in explicitly as environment
records of functions.  An operation that can raise an uncaught Python
exception (KeyError, TypeError, AttributeError, NameError) returns
`Option`, with `none` for the crash.  The `[A-Z\d]` class of
`assess_setup`'s location regex is modelled with Python's `str`-pattern
semantics for `\d` (all Unicode decimal digits, category Nd — the
pattern is compiled without `re.ASCII`); the remaining character classes,
which the source only ever applies to ASCII paths and filenames it
builds itself, are modelled over ASCII.
-/

namespace Agent

/-! ## String helpers (regex fragments used by the source) -/

/-- Splits a character list at the LAST occurrence of `sep`:
`splitLastChar sep l = some (p, s)` iff `l = p ++ sep :: s` and `sep ∉ s`.
This is the shape computed by the greedy anchored regexes of the source
(`(.+)/(.+)?$`, `(.+)\.(.+)?$`, and the lazy `.+?/([A-Z\d]+)$`). -/
def splitLastChar (sep : Char) : List Char → Option (List Char × List Char)
  | [] => none
  | c :: rest =>
    match splitLastChar sep rest with
    | some (p, s) => some (c :: p, s)
    | none => if c = sep then some ([], rest) else none

/-- Code-point ranges of the Unicode general category Nd (decimal
digits), Unicode 14.0 (the table of Python 3.11): the class Python's
`\d` matches on a `str` pattern compiled without `re.ASCII`, as in
`assess_setup`'s location regex (src/lib/dataset_processor.py:182). -/
def ndRanges : List (Nat × Nat) := [
  (0x30, 0x39), (0x660, 0x669), (0x6F0, 0x6F9), (0x7C0, 0x7C9),
  (0x966, 0x96F), (0x9E6, 0x9EF), (0xA66, 0xA6F), (0xAE6, 0xAEF),
  (0xB66, 0xB6F), (0xBE6, 0xBEF), (0xC66, 0xC6F), (0xCE6, 0xCEF),
  (0xD66, 0xD6F), (0xDE6, 0xDEF), (0xE50, 0xE59), (0xED0, 0xED9),
  (0xF20, 0xF29), (0x1040, 0x1049), (0x1090, 0x1099), (0x17E0, 0x17E9),
  (0x1810, 0x1819), (0x1946, 0x194F), (0x19D0, 0x19D9), (0x1A80, 0x1A89),
  (0x1A90, 0x1A99), (0x1B50, 0x1B59), (0x1BB0, 0x1BB9), (0x1C40, 0x1C49),
  (0x1C50, 0x1C59), (0xA620, 0xA629), (0xA8D0, 0xA8D9), (0xA900, 0xA909),
  (0xA9D0, 0xA9D9), (0xA9F0, 0xA9F9), (0xAA50, 0xAA59), (0xABF0, 0xABF9),
  (0xFF10, 0xFF19), (0x104A0, 0x104A9), (0x10D30, 0x10D39),
  (0x11066, 0x1106F), (0x110F0, 0x110F9), (0x11136, 0x1113F),
  (0x111D0, 0x111D9), (0x112F0, 0x112F9), (0x11450, 0x11459),
  (0x114D0, 0x114D9), (0x11650, 0x11659), (0x116C0, 0x116C9),
  (0x11730, 0x11739), (0x118E0, 0x118E9), (0x11950, 0x11959),
  (0x11C50, 0x11C59), (0x11D50, 0x11D59), (0x11DA0, 0x11DA9),
  (0x16A60, 0x16A69), (0x16AC0, 0x16AC9),
  (0x16B50, 0x16B59), (0x1D7CE, 0x1D7FF), (0x1E140, 0x1E149),
  (0x1E2F0, 0x1E2F9), (0x1E950, 0x1E959),
  (0x1FBF0, 0x1FBF9)]

/-- Python `\d` on a `str` pattern without `re.ASCII`: any Unicode
decimal digit. -/
def isDigitNd (c : Char) : Bool :=
  ndRanges.any (fun r => r.1 ≤ c.toNat ∧ c.toNat ≤ r.2)

/-- Character class `[A-Z\d]` of `assess_setup`'s location regex: ASCII
uppercase or any Unicode decimal digit. -/
def goodChar (c : Char) : Bool :=
  decide ('A' ≤ c ∧ c ≤ 'Z') || isDigitNd c

/-- Embeds `re.match(r'.+?/([A-Z\d]+)$', loc)` from `assess_setup`
(src/lib/dataset_processor.py:182): the match succeeds iff `loc` ends in a
nonempty all-`[A-Z\d]` run preceded by a `/` that is not the first
character; the captured group is that final run. -/
def locationGroup (loc : String) : Option String :=
  match splitLastChar '/' loc.data with
  | some (p, s) => if p ≠ [] ∧ s ≠ [] ∧ s.all goodChar then some (String.mk s) else none
  | none => none

/-- Suffix test on strings via their character lists. -/
def endsWithStr (suf s : String) : Bool :=
  List.isSuffixOf suf.data s.data

/-- Embeds `re.sub(r'\.raw$', '.mzML', full_path, flags=re.I)` from
`queue_tasks` (src/lib/automation_agent.py:527). -/
def subRawToMzML (s : String) : String :=
  let l := s.data
  if 4 ≤ l.length ∧ (l.drop (l.length - 4)).map Char.toLower = '.' :: 'r' :: 'a' :: 'w' :: [] then
    String.mk (l.take (l.length - 4) ++ ('.' :: 'm' :: 'z' :: 'M' :: 'L' :: []))
  else s

/-- Whitespace class stripped by Python's `str.rstrip()` (ASCII subset). -/
def pyWhitespace (c : Char) : Bool :=
  c = ' ' ∨ c = '\t' ∨ c = '\n' ∨ c = '\r' ∨ c = '\x0b' ∨ c = '\x0c'

/-- Embeds Python `line.rstrip()`. -/
def rstrip (s : String) : String :=
  String.mk ((s.data.reverse.dropWhile pyWhitespace).reverse)

/-! ## Command-file cursor (`read_command`, src/lib/automation_agent.py:221-251)

The command file is an append-only sequence of newline-terminated lines;
each element of the list below is one line's content without its
terminating newline, so its byte contribution to the cursor is
`length + 1` exactly as `pointer += len(line)` computes before
`line = line.rstrip()`. -/

/-- Byte length of the whole command file. -/
def totalLen (lines : List String) : Nat :=
  (lines.map (fun l => l.length + 1)).sum

/-- Inner loop of `read_command`: walk the lines accumulating the byte
offset `acc`, and return (stripped line, new persisted cursor) for the
first line whose end offset exceeds the stored cursor `cp`. -/
def readCommandFrom : List String → Nat → Nat → Option (String × Nat)
  | [], _, _ => none
  | l :: rest, acc, cp =>
    if acc + (l.length + 1) > cp then some (rstrip l, acc + (l.length + 1))
    else readCommandFrom rest (acc + (l.length + 1)) cp

/-- Embeds `AutomationAgent.read_command`: `cp` is the persisted
`command_pointer`; on a hit the cursor is advanced to the returned offset
and persisted, otherwise it is left unchanged. -/
def read_command (lines : List String) (cp : Nat) : Option (String × Nat) :=
  readCommandFrom lines 0 cp

/-- Cursor value after one `read_command` call (unchanged on `none`). -/
def nextPointer (lines : List String) (cp : Nat) : Nat :=
  match read_command lines cp with
  | some (_, cp') => cp'
  | none => cp

/-! ## Data model of the DatasetProcessor (src/lib/dataset_processor.py) -/

/-- One file's download/conversion record (the flat dicts built at
src/lib/dataset_processor.py:401,412,490,611,735,830).  Fields that some of
those dicts omit (`uri`) or that hold Python `None` are `Option`. -/
structure FileRec where
  status : String
  fileroot : String
  filename : String
  full_path : String
  location : String
  uri : Option String := none
  expected_size : Option Int := none
  current_size : Option Int := none
  local_age : Option Int := none
  is_complete : Bool
  filetype : Option String := none
deriving DecidableEq, Repr

/-- An abstract task appended to `tasks_todo` by the state machine. -/
structure Task where
  command : String
  file_metadata : FileRec
deriving DecidableEq, Repr

/-- One entry of `px_data['fullDatasetLinks']`. -/
structure PXLink where
  name : String
  value : String
deriving DecidableEq, Repr

/-- One entry of `px_data['datasetFiles']`. -/
structure PXFile where
  name : String
  value : String
deriving DecidableEq, Repr

/-- The parsed ProteomeXchange record, restricted to the keys the program
reads; `none` models an absent key. -/
structure PXData where
  fullDatasetLinks : Option (List PXLink) := none
  datasetFiles : Option (List PXFile) := none
deriving DecidableEq, Repr

/-- The `dataset['metadata']['manifest']` dict. -/
structure Manifest where
  status : String
  file : Option FileRec := none
deriving DecidableEq, Repr

/-- One `dataset['metadata']['ms_runs'][fileroot]` entry; `raw_file` is
always present when the entry is created (lines 512-513). -/
structure MsRun where
  raw_file : FileRec
  mzML_file : Option FileRec := none
  mzML_gz_file : Option FileRec := none
deriving DecidableEq, Repr

/-- One tracked dataset.  `pstate` is `state['processing_state']`;
`ms_runs` is an insertion-ordered association list; `ftp_location` is
`none` both when the key is absent and when it holds Python `None` (the
code treats both reads the same way on the paths modelled here). -/
structure Dataset where
  status : String
  pstate : String
  dataset_id : String
  location : Option String
  px_data : Option PXData := none
  ftp_location : Option String := none
  manifest : Option Manifest := none
  ms_runs : List (String × MsRun) := []
deriving DecidableEq, Repr

/-- External effects consumed by one `process_dataset` call: filesystem
existence, `os.mkdir` success, the HTTP status of the ProteomeXchange
fetch, the parse result of the persisted record, and the FTP `nlst`. -/
structure Env where
  exists_ : String → Bool
  mkdirOk : String → Bool
  pxStatus : Int
  pxParse : Option PXData := none
  ftpListing : Option (List String) := none

/-- A per-dataset error: `status='ERROR'` and the error code recorded in
`state['processing_state']`, the pattern of every error path. -/
def derr (d : Dataset) (code : String) : Dataset :=
  { d with status := "ERROR", pstate := code }

/-- Embeds `DatasetProcessor.add_dataset` (src/lib/dataset_processor.py:39-52). -/
def add_dataset (base_dir dataset_id : String) : Dataset :=
  { status := "QUEUED", pstate := "Queued", dataset_id := dataset_id,
    location := some (base_dir ++ "/" ++ dataset_id) }

/-- Rendering of `dataset['metadata']['location']` inside f-strings
(Python prints `None` for a missing location). -/
def locStr (d : Dataset) : String :=
  match d.location with
  | some l => l
  | none => "None"

/-- Filesystem after a successful directory/file creation at `p`. -/
def fsAdd (fs : String → Bool) (p : String) : String → Bool :=
  fun q => if q = p then true else fs q

/-- Embeds `DatasetProcessor.create_destination` (...:273-316): create the
dataset directory and its `data` subdirectory if absent; any `os.mkdir`
failure records an ERROR on the dataset.  Returns the dataset and the
filesystem as it looks afterwards. -/
def create_destination (env : Env) (fs : String → Bool) (d : Dataset) (loc : String) :
    Dataset × (String → Bool) :=
  let step1 : Option (String → Bool) :=
    if fs loc then some fs
    else if env.mkdirOk loc then some (fsAdd fs loc) else none
  match step1 with
  | none => (derr d "CannotCreateLocation", fs)
  | some fs1 =>
    if ¬ fs1 loc then (derr d "LocationNotCreated", fs1)
    else
      let dataDir := loc ++ "/data"
      if fs1 dataDir then (d, fs1)
      else if env.mkdirOk dataDir then (d, fsAdd fs1 dataDir)
      else (derr d "CannotCreateLocation", fs1)

/-- Embeds `DatasetProcessor.fetch_px_record` (...:320-344): a non-200
response records an ERROR; a 200 response persists the record file. -/
def fetch_px_record (env : Env) (fs : String → Bool) (d : Dataset) (loc : String) :
    Dataset × (String → Bool) :=
  if env.pxStatus ≠ 200 then (derr d "CannotFetchPXRecord", fs)
  else (d, fsAdd fs (loc ++ "/data/ProteomeXchange.json"))

/-- Extraction of the FTP location from the record (...:251-258 and
644-651): the loop keeps overwriting, so the last matching link wins. -/
def extractFtp (px : PXData) : Option String :=
  match px.fullDatasetLinks with
  | none => none
  | some links =>
    ((links.filter (fun t => t.name == "Dataset FTP location")).getLast?).map (fun t => t.value)

/-- The location-existence stage of `assess_setup` (...:201-213): in
assess mode a missing location is created (ERROR on failure aborts), in
verify mode it is a hard `LocationMissing` failure.  `.error` is the
early return of the source. -/
def setup_stage1 (env : Env) (mode : String) (d : Dataset) (loc : String) :
    Except Dataset (Dataset × (String → Bool)) :=
  if ¬ env.exists_ loc then
    if mode = "assess" then
      let r := create_destination env env.exists_ d loc
      if r.1.status = "ERROR" then .error r.1 else .ok r
    else .error (derr d "LocationMissing")
  else .ok (d, env.exists_)

/-- The record-existence stage of `assess_setup` (...:215-227): in assess
mode a missing ProteomeXchange record is fetched (ERROR aborts), in
verify mode it is a hard `PXRecordMissing` failure. -/
def setup_stage2 (env : Env) (mode : String) (d1 : Dataset) (fs1 : String → Bool)
    (loc : String) : Except Dataset Dataset :=
  if ¬ fs1 (loc ++ "/data/ProteomeXchange.json") then
    if mode = "assess" then
      let r := fetch_px_record env fs1 d1 loc
      if r.1.status = "ERROR" then .error r.1 else .ok r.1
    else .error (derr d1 "PXRecordMissing")
  else .ok d1

/-- The closing stage of `assess_setup` (...:229-268): parse the record,
store it if not already stored, extract the FTP location.  The source BUG
on the `CannotFindfullDatasetLinks` path (no `return`; `processing_state`
is then overwritten with 'Ready to download' at line 267) is preserved
faithfully. -/
def setup_finish (env : Env) (d2 : Dataset) : Dataset :=
  match env.pxParse with
  | none => derr d2 "CannotParsePXJSON"
  | some px =>
    let d3 := if d2.px_data.isSome then d2 else { d2 with px_data := some px }
    let d4 := { d3 with ftp_location := none }
    match extractFtp px with
    | some v => { d4 with ftp_location := some v, pstate := "Ready to download" }
    | none => { derr d4 "CannotFindfullDatasetLinks" with pstate := "Ready to download" }

/-- The dispatch of `assess_setup` after the PROCESSING status set. -/
def assess_setup_checked (env : Env) (d : Dataset) : Dataset :=
  match d.location with
  | none => derr d "MissingLocation"
  | some loc =>
    match locationGroup loc with
    | none => derr d "InvalidLocation"
    | some g =>
      if g ≠ d.dataset_id then derr d "InvalidLocation"
      else
        match setup_stage1 env (if d.pstate = "Set up" then "verify" else "assess") d loc with
        | .error d1 => d1
        | .ok r1 =>
          match setup_stage2 env (if d.pstate = "Set up" then "verify" else "assess")
              r1.1 r1.2 loc with
          | .error d2 => d2
          | .ok d2 => setup_finish env d2

/-- Embeds `DatasetProcessor.assess_setup` (src/lib/dataset_processor.py:149-268).
The `dataset_id` presence checks at the top cannot fail for a dataset
reached through `process_dataset` and are omitted.  Every Python error
path records ERROR on the dataset instead of raising, so the function is
total. -/
def assess_setup (env : Env) (d0 : Dataset) : Dataset :=
  assess_setup_checked env { d0 with status := "PROCESSING" }

/-- The README record built by the manifest check (...:401-405,412-416). -/
def readmeRec (loc ftp_dir : String) (ready : Bool) : FileRec :=
  { status := if ready then "READY" else "TODO", fileroot := "README", filename := "README.txt",
    full_path := loc ++ "/data/README.txt", location := loc ++ "/data",
    uri := some (ftp_dir ++ "/README.txt"), is_complete := ready, filetype := some "txt" }

/-- The manifest portion of `assess_download` (...:377-426).  The caller
has just ensured `manifest` is present.  `none` models the KeyError on
`manifest['file']` when status is DOWNLOADING but no record exists. -/
def manifest_step (env : Env) (ftp_dir : String) (d : Dataset) :
    Option (Dataset × List Task) :=
  match d.manifest with
  | none => some (d, [])
  | some man =>
    if man.status = "READY" then some (d, [])
    else if man.status = "UNAVAILABLE" then some (d, [])
    else
      let loc := locStr d
      if env.exists_ (loc ++ "/data/README.txt") then
        some ({ d with manifest := some { status := "READY", file := some (readmeRec loc ftp_dir true) } }, [])
      else if man.status = "UNKNOWN" then
        let f := readmeRec loc ftp_dir false
        some ({ d with manifest := some { status := "DOWNLOADING", file := some f } },
          [{ command := "download_file", file_metadata := f }])
      else if man.status = "DOWNLOADING" then
        match man.file with
        | none => none
        | some f =>
          if f.status = "UNAVAILABLE" then
            some ({ d with manifest := some { man with status := "UNAVAILABLE" } }, [])
          else some (d, [])
      else some (d, [])

/-- Collection of MS-run (filename, uri) pairs from `datasetFiles`
(...:450-461).  The uri regex `(.+)/(.+)?$` is greedy, so it splits at the
last slash; a slashless uri (or one whose only slash is first) fails the
match and records `FailedFilenameMatch`.  A uri ending in a slash yields
group(2) `None`, which crashes later: the filename stays `Option`. -/
def collect_runs (d : Dataset) : List PXFile → Except Dataset (List (Option String × String))
  | [] => .ok []
  | f :: rest =>
    if f.name = "Associated raw file URI" then
      match splitLastChar '/' f.value.data with
      | some (p, s) =>
        if p = [] then .error (derr d "FailedFilenameMatch")
        else
          match collect_runs d rest with
          | .error de => .error de
          | .ok tl => .ok ((if s = [] then none else some (String.mk s), f.value) :: tl)
      | none => .error (derr d "FailedFilenameMatch")
    else collect_runs d rest

/-- Match test for `re.match(r'ftp://(.+?)/(.+)$', ftp_url)` (...:656). -/
def ftpUrlOk (url : String) : Bool :=
  List.isPrefixOf "ftp://".data url.data ∧ (((url.data.drop 6).drop 1).dropLast).contains '/'

/-- Embeds `DatasetProcessor.get_ftp_dir_listing` (...:628-687).  Every
failure path returns Python `None` after recording an error code that
`assess_download` immediately overwrites with
`DatasetFilesFailedFTPDirListing`, so failures collapse to `none` here.
Also note the listing keeps only names ending in `.raw` or `.RAW`. -/
def get_ftp_dir_listing (env : Env) (px : PXData) : Option (List (Option String × String)) :=
  match extractFtp px with
  | none => none
  | some url =>
    if ftpUrlOk url then
      match env.ftpListing with
      | none => none
      | some files =>
        some ((files.filter (fun f => endsWithStr ".raw" f || endsWithStr ".RAW" f)).map
          (fun f => (some f, url ++ "/" ++ f)))
    else none

/-- Lookup in the `ms_runs` association list. -/
def lookupRun (runs : List (String × MsRun)) (k : String) : Option MsRun :=
  (runs.find? (fun p => p.1 == k)).map (fun p => p.2)

/-- The per-run loop of `assess_download` (...:475-525), reached only when
`previous_msruns` is empty.  Returns (dataset, tasks, missing-flag,
early-return-flag).  `none` models the TypeError on a `None` filename and
the KeyError of `del previous_msruns[fileroot]` (line 484, where
`previous_msruns` is empty whenever this loop runs). -/
def enum_runs (env : Env) : Dataset → List Task → Bool → List (Option String × String) →
    Option (Dataset × List Task × Bool × Bool)
  | d, ts, missing, [] => some (d, ts, missing, false)
  | d, ts, missing, (fnOpt, uri) :: rest =>
    match fnOpt with
    | none => none
    | some fn =>
      match splitLastChar '.' fn.data with
      | none => some (derr d "FailedFileRootMatch", ts, missing, true)
      | some (root, ext) =>
        if root = [] then some (derr d "FailedFileRootMatch", ts, missing, true)
        else
          let fileroot := String.mk root
          match lookupRun d.ms_runs fileroot with
          | some mr =>
            if mr.raw_file.status = "READY" then none
            else enum_runs env d ts missing rest
          | none =>
            let loc := locStr d
            let present := env.exists_ (loc ++ "/data/" ++ fn)
            let fi : FileRec :=
              { status := if present then "READY" else "TODO", fileroot := fileroot,
                filename := fn, full_path := loc ++ "/data/" ++ fn, location := loc ++ "/data",
                uri := some uri, is_complete := present,
                filetype := if ext = [] then none else some (String.mk ext) }
            let d1 := { d with ms_runs := d.ms_runs ++ [(fileroot, { raw_file := fi })] }
            if fi.status = "TODO" then
              enum_runs env { d1 with status := "PROCESSING", pstate := "Downloading" }
                (ts ++ [{ command := "download_file", file_metadata := fi }]) true rest
            else enum_runs env d1 ts missing rest

/-- The tail of `assess_download` (...:529-544).  Line 531 compares
(`==`) where an assignment was plainly meant, so the assess branch leaves
`processing_state` untouched. -/
def finishDownload (mode : String) (d : Dataset) (ts : List Task) (missing : Bool)
    (previous : List String) : Dataset × List Task :=
  if previous ≠ [] ∨ missing then
    if mode = "assess" then (d, ts)
    else (derr d "MissingMSRunFiles", ts)
  else ({ d with pstate := "Ready to convert" }, ts)

/-- Determination of the run list to enumerate (...:444-472): prefer the
structured `datasetFiles` entries, falling back to the FTP listing; any
failure is the early error return of the source with the dataset carrying
an ERROR status. -/
def runsEOf (env : Env) (px : PXData) (d2 : Dataset) (ts : List Task) :
    Except (Dataset × List Task) (Dataset × List (Option String × String)) :=
  match px.datasetFiles with
  | some files =>
    match collect_runs d2 files with
    | .error de => .error (de, ts)
    | .ok runs => .ok (d2, runs)
  | none =>
    match get_ftp_dir_listing env px with
    | none => .error (derr d2 "DatasetFilesFailedFTPDirListing", ts)
    | some runs =>
      if runs = [] then .error (derr d2 "DatasetFilesFailedFTPDirListing", ts)
      else .ok ({ d2 with status := "PROCESSING" }, runs)

/-- Enumeration phase of `assess_download` followed by the closing
transition check (...:474-544). -/
def assess_download_enum (env : Env) (mode : String) (previous : List String)
    (ts : List Task)
    (runsE : Except (Dataset × List Task) (Dataset × List (Option String × String))) :
    Option (Dataset × List Task) :=
  match runsE with
  | .error r => some r
  | .ok (d2', runs) =>
    match enum_runs env d2' ts false runs with
    | none => none
    | some (d3, ts3, missing, early) =>
      if early then some (d3, ts3)
      else some (finishDownload mode d3 ts3 missing previous)

/-- The body of `assess_download` after the metadata accesses: manifest
check, run enumeration, and the closing transition check, with the mode
already computed. -/
def assess_download_body (env : Env) (px : PXData) (mode : String) (ftp_dir : String)
    (d1 : Dataset) : Option (Dataset × List Task) :=
  match manifest_step env ftp_dir d1 with
  | none => none
  | some r2 =>
    if r2.1.ms_runs.map (fun p => p.1) = [] then
      assess_download_enum env mode (r2.1.ms_runs.map (fun p => p.1)) r2.2
        (runsEOf env px r2.1 r2.2)
    else some (finishDownload mode r2.1 r2.2 false (r2.1.ms_runs.map (fun p => p.1)))

/-- Embeds `DatasetProcessor.assess_download` (src/lib/dataset_processor.py:348-544).
Returns the updated dataset and the tasks appended to `tasks_todo` during
the call; `none` models an uncaught exception.  `verify_by_curl_continue`
is the constant False of line 353.  The mode is 'verify' only for the
unreachable state 'Ready for conversion' (line 368, marked FIXME in the
source). -/
def assess_download (env : Env) (d0 : Dataset) : Option (Dataset × List Task) :=
  match d0.px_data with
  | none => none
  | some px =>
    assess_download_body env px
      (if d0.pstate = "Ready for conversion" then "verify" else "assess")
      (d0.ftp_location.getD "????")
      { d0 with manifest := some (d0.manifest.getD { status := "UNKNOWN" }) }

/-- Embeds `DatasetProcessor.assess_conversion` (...:691-803).  With a
nonempty `ms_runs`, the first loop iteration at line 726 evaluates an
f-string over the local variable `filename` before any assignment to it,
raising NameError, so the call crashes.  With empty `ms_runs` every loop
is skipped and the remaining state dispatch only compares (`==` where `=`
was apparently intended, lines 771, 782, 793) or logs, leaving the
dataset unchanged. -/
def assess_conversion (d : Dataset) : Option Dataset :=
  if d.ms_runs = [] then some d else none

/-- Models the call `self.compress_dataset(dataset_id)`
(src/lib/dataset_processor.py:120): the class defines no method of that
name, so the call raises AttributeError unconditionally. -/
def compress_dataset (_d : Dataset) : Option Dataset := none

/-- Embeds `DatasetProcessor.process_dataset` (src/lib/dataset_processor.py:72-145).
The `while` loop breaks unconditionally after one dispatch (line 139), and
line 83 overwrites `status` with PROCESSING before the loop's ERROR check,
which is therefore dead (kept verbatim below).  Returns the dataset and
the tasks appended to `tasks_todo`; `none` models an uncaught exception. -/
def process_dataset (env : Env) (d0 : Dataset) : Option (Dataset × List Task) :=
  let d := { d0 with status := "PROCESSING" }
  if d.status = "ERROR" then some (d, [])
  else if d.pstate = "Queued" then some (assess_setup env d, [])
  else if d.pstate = "Set up" then some (assess_setup env d, [])
  else if d.pstate = "Ready to download" then assess_download env d
  else if d.pstate = "Downloading" then assess_download env d
  else if d.pstate = "Ready to convert" then some ({ d with pstate := "Wait" }, [])
  else if d.pstate = "Converting" then (assess_conversion d).map (fun r => (r, []))
  else if d.pstate = "Ready to compress" then
    match assess_conversion d with
    | none => none
    | some r =>
      if r.pstate = "Ready to compress" then (compress_dataset r).map (fun x => (x, []))
      else some (r, [])
  else if d.pstate = "Compressing" then (assess_conversion d).map (fun r => (r, []))
  else if d.pstate = "Wait" then some ({ d with status := "READY" }, [])
  else some ({ d with status := "ERROR" }, [])

/-- Embeds `DatasetProcessor.process` (...:56-68): one pass of
`process_dataset` over every tracked dataset, accumulating tasks. -/
def process (env : Env) : List Dataset → Option (List Dataset × List Task)
  | [] => some ([], [])
  | d :: rest =>
    match process_dataset env d with
    | none => none
    | some (d', ts) =>
      match process env rest with
      | none => none
      | some (ds', ts') => some (d' :: ds', ts ++ ts')

/-! ## Job scheduler (src/lib/automation_agent.py)

The registry `self.jobs` is a dict with monotonically increasing integer
keys, iterated in insertion order: an association list here.  The
`n_running_jobs_by_type` dict is modelled as a total function defaulting
to 0, matching the create-if-absent initialisation at launch time
(lines 406-407); the decrements in `poll_jobs` only touch types of
running jobs, which launching has always initialised. -/

/-- One scheduler job dict.  Keys that some producers omit (`get`-command
jobs lack `retry_staleness`/`n_retries`/`max_retries`/`expected_output_file`/
`file_handle`, unlaunched jobs lack `launch_timestamp`) are `Option`.
`file_handle` is the shared back-reference to a FileRecord, modelled as an
index into the agent's file store; `handle` is whether a live process
handle is attached. -/
structure Job where
  pid : Option Int := none
  type : String
  args : List String := []
  location : String := ""
  status : String
  handle : Bool := false
  launch_timestamp : Option Int := none
  retry_staleness : Option Int := none
  n_retries : Option Nat := none
  max_retries : Option Nat := none
  expected_output_file : Option String := none
  file_handle : Option Nat := none
deriving DecidableEq, Repr

/-- The scheduler's mutable state: the registry, the `job_control`
counters, the store of FileRecords reachable through `file_handle`
back-references, and the error codes reported so far. -/
structure AgentState where
  jobs : List (Nat × Job) := []
  job_index : Nat := 1
  n_jobs : Int := 0
  n_running_jobs : Int := 0
  byType : String → Int := fun _ => 0
  files : List FileRec := []
  errors : List String := []

/-- The configuration keys consulted by the scheduler. -/
structure Config where
  max_running_jobs : Int
  caps : List (String × Int)

/-- Lookup of `config['max_running_jobs_by_type'][t]`; `none` is the
KeyError when a job's type has no configured cap. -/
def lookupCap (caps : List (String × Int)) (t : String) : Option Int :=
  (caps.find? (fun p => p.1 == t)).map (fun p => p.2)

/-- Pointwise update of the by-type counter function. -/
def updFn (f : String → Int) (k : String) (v : Int) : String → Int :=
  fun t => if t = k then v else f t

/-- Membership of a job id in the deferred-deletion list. -/
def memId (ids : List Nat) (k : Nat) : Bool :=
  match ids with
  | [] => false
  | i :: rest => if i = k then true else memId rest k

/-- External observations made by one `poll_jobs` pass: per-job
`proc.poll()` results, file existence, file mtimes, the current time and
file sizes (all times in integer seconds, as the source truncates). -/
structure PollEnv where
  exited : Nat → Option Int
  fileExists : String → Bool
  mtime : String → Int
  now : Int
  size : String → Int

/-- Embeds `AutomationAgent.add_job` (src/lib/automation_agent.py:343-353):
insert under the next `job_index`, bump `n_jobs` and `job_index`. -/
def add_job (j : Job) (st : AgentState) : AgentState :=
  { st with jobs := st.jobs ++ [(st.job_index, j)],
            n_jobs := st.n_jobs + 1,
            job_index := st.job_index + 1 }

/-- Registry lookup `self.jobs[job_id]`. -/
def lookupJob (jobs : List (Nat × Job)) (id : Nat) : Option Job :=
  (jobs.find? (fun p => p.1 == id)).map (fun p => p.2)

/-- In-place field update of the registry entry `id` (the Python code
mutates the shared job dict). -/
def setJob (jobs : List (Nat × Job)) (id : Nat) (j : Job) : List (Nat × Job) :=
  jobs.map (fun p => if p.1 = id then (p.1, j) else p)

/-- The launch loop of `launch_jobs` (...:402-421): for each candidate id,
re-fetch the job, initialise the per-type counter if needed, skip the
candidate when its type's running count has reached that type's cap
(note: the GLOBAL cap is never re-checked here), otherwise spawn it.
`none` models the KeyError when a type has no configured cap. -/
def launchLoop (cfg : Config) (now : Int) : List Nat → AgentState → Option AgentState
  | [], st => some st
  | id :: rest, st =>
    match lookupJob st.jobs id with
    | none => none
    | some j =>
      match lookupCap cfg.caps j.type with
      | none => none
      | some cap =>
        if st.byType j.type ≥ cap then launchLoop cfg now rest st
        else
          let j' := { j with
            handle := true
            pid := some 0
            status := "run"
            launch_timestamp := some now }
          launchLoop cfg now rest
            { st with jobs := setJob st.jobs id j',
                      n_running_jobs := st.n_running_jobs + 1,
                      byType := updFn st.byType j.type (st.byType j.type + 1) }

/-- Embeds `AutomationAgent.launch_jobs` (src/lib/automation_agent.py:376-421):
return immediately when nothing is queued or the global cap is already
reached, then order candidates urgent-first (`redo` before `qw`,
insertion order within each group) and run the launch loop. -/
def launch_jobs (cfg : Config) (now : Int) (st : AgentState) : Option AgentState :=
  if st.n_jobs = 0 then some st
  else if st.n_running_jobs ≥ cfg.max_running_jobs then some st
  else
    let urgent := (st.jobs.filter (fun p => p.2.status == "redo")).map (fun p => p.1)
    let other := (st.jobs.filter (fun p => p.2.status != "run" && p.2.status != "redo")).map
      (fun p => p.1)
    launchLoop cfg now (urgent ++ other) st

/-- Outcome of examining one job inside the `poll_jobs` scan:
`skip` (not running, or running and not stale), `kill` (stale: terminate,
decrement counters, delete; fatal when retries are exhausted, else the
updated job is requeued), `exited` (process finished: decrement counters,
delete; for downloads either mark the FileRecord READY or requeue). -/
inductive PollAct where
  | skip : PollAct
  | kill (fatal : Bool) (j' : Job) : PollAct
  | exited (fileUpd : Option (Nat × Int)) (restart : Option Job) : PollAct
deriving DecidableEq, Repr

/-- The per-job body of the `poll_jobs` loop (...:437-489).  `none`
models the KeyErrors on a running job without `launch_timestamp` or an
exited download job without a resolvable `file_handle`. -/
def pollOne (env : PollEnv) (files : List FileRec) (id : Nat) (j : Job) : Option PollAct :=
  if j.status ≠ "run" then some .skip
  else
    match env.exited id with
    | none =>
      match j.retry_staleness, j.expected_output_file with
      | some w, some f =>
        if w > 0 then
          if env.fileExists f then
            match j.launch_timestamp with
            | none => none
            | some lt =>
              let file_age := env.now - env.mtime f
              let job_age := env.now - lt
              if file_age > w ∧ job_age > w then
                let r := j.n_retries.getD 0 + 1
                let m := j.max_retries.getD 10
                some (.kill (r > m) { j with n_retries := some r, max_retries := some m })
              else some .skip
          else some .skip
        else some .skip
      | _, _ => some .skip
    | some _rc =>
      if j.type = "download" then
        match j.file_handle with
        | none => none
        | some idx =>
          match files.get? idx with
          | none => none
          | some fr =>
            if env.fileExists fr.full_path then
              some (.exited (some (idx, env.size fr.full_path)) none)
            else some (.exited none (some j))
      else some (.exited none none)

/-- Application of a `poll_jobs` file update to the store: the FileRecord
becomes READY, complete, with its on-disk size (...:483-486). -/
def applyFileUpd (files : List FileRec) : PollAct → List FileRec
  | .exited (some (idx, sz)) _ =>
    match files.get? idx with
    | some fr =>
      files.set idx { fr with
        status := "READY"
        is_complete := true
        current_size := some sz }
    | none => files
  | _ => files

/-- The scan phase of `poll_jobs`: examine every registry entry in order,
collecting its action and threading the file store. -/
def pollScan (env : PollEnv) : List FileRec → List (Nat × Job) →
    Option (List (Nat × Job × PollAct) × List FileRec)
  | files, [] => some ([], files)
  | files, (id, j) :: rest =>
    match pollOne env files id j with
    | none => none
    | some act =>
      match pollScan env (applyFileUpd files act) rest with
      | none => none
      | some r => some ((id, j, act) :: r.1, r.2)

/-- True when the action deletes its job from the registry. -/
def isDelete : PollAct → Bool
  | .skip => false
  | _ => true

/-- Counter and error bookkeeping done inside the scan loop for one job
(decrements happen for every kill/exit; `MaxRetriesReached` is reported
when retries are exhausted, lines 454-467 and 475-479). -/
def applyCounters (st : AgentState) (j : Job) : PollAct → AgentState
  | .skip => st
  | .kill fatal _ =>
    { st with n_jobs := st.n_jobs - 1, n_running_jobs := st.n_running_jobs - 1,
              byType := updFn st.byType j.type (st.byType j.type - 1),
              errors := if fatal then st.errors ++ ["MaxRetriesReached"] else st.errors }
  | .exited _ _ =>
    { st with n_jobs := st.n_jobs - 1, n_running_jobs := st.n_running_jobs - 1,
              byType := updFn st.byType j.type (st.byType j.type - 1) }

/-- The job a given action requeues, if any. -/
def restartOf : PollAct → Option Job
  | .kill fatal j' => if fatal then none else some j'
  | .exited _ r => r
  | .skip => none

/-- Requeue clears pid and handle and sets status `redo` (...:497-500). -/
def requeueJob (j : Job) : Job :=
  { j with pid := none, handle := false, status := "redo" }

/-- Embeds `AutomationAgent.poll_jobs` (src/lib/automation_agent.py:425-501):
scan all running jobs (stale kills and exits recorded as actions), apply
the counter/error effects in order, then the deferred registry deletions,
then re-add requeued jobs through `add_job`. -/
def poll_jobs (env : PollEnv) (st : AgentState) : Option AgentState :=
  if st.n_running_jobs = 0 then some st
  else
    match pollScan env st.files st.jobs with
    | none => none
    | some sc =>
      let st1 := sc.1.foldl (fun s a => applyCounters s a.2.1 a.2.2) { st with files := sc.2 }
      let delIds := (sc.1.filter (fun a => isDelete a.2.2)).map (fun a => a.1)
      let st2 := { st1 with jobs := st1.jobs.filter (fun p => ! memId delIds p.1) }
      some ((sc.1.filterMap (fun a => restartOf a.2.2)).foldl
        (fun s j => add_job (requeueJob j) s) st2)

/-- Result of translating one task (`queue_tasks`, ...:504-540). -/
inductive TransResult where
  | job (j : Job) : TransResult
  | unrecognized : TransResult
deriving DecidableEq, Repr

/-- The job built for one task by `queue_tasks`; `idx` is the index at
which the task's FileRecord sits in the agent's file store (the
`file_handle` back-reference).  `none` models the KeyError on a
`download_file` task whose FileRecord has no uri.  Note BOTH branches
build a job of type 'download' (lines 518 and 528). -/
def translateTask (idx : Nat) (t : Task) : Option TransResult :=
  if t.command = "download_file" then
    match t.file_metadata.uri with
    | none => none
    | some uri =>
      some (.job { pid := none
                   type := "download"
                   args := ["curl", "-R", "-O", "-C", "-", uri]
                   retry_staleness := some 30
                   n_retries := some 0
                   max_retries := some 10
                   file_handle := some idx
                   location := t.file_metadata.location
                   status := "qw"
                   handle := false
                   expected_output_file := some t.file_metadata.full_path })
  else if t.command = "convert_to_mzML" then
    some (.job { pid := none
                 type := "download"
                 args := ["C:/Users/ericd/Documents/Software/Thermo/ThermoRawFileParser/ThermoRawFileParser",
                          "-m", "0", "-f", "2", "-i", t.file_metadata.full_path]
                 retry_staleness := some 30
                 n_retries := some 0
                 max_retries := some 10
                 file_handle := some idx
                 location := t.file_metadata.location
                 status := "qw"
                 handle := false
                 expected_output_file := some (subRawToMzML t.file_metadata.full_path) })
  else some .unrecognized

/-- Embeds `AutomationAgent.queue_tasks` (src/lib/automation_agent.py:504-540):
translate each task in order, adding jobs through `add_job` and storing
each task's FileRecord in the file store; an unrecognized command reports
`UnrecognizedTaskName`.  The caller clears `tasks_todo` afterwards. -/
def queue_tasks : List Task → AgentState → Option AgentState
  | [], st => some st
  | t :: rest, st =>
    match translateTask st.files.length t with
    | none => none
    | some (.job j) =>
      queue_tasks rest (add_job j { st with files := st.files ++ [t.file_metadata] })
    | some .unrecognized =>
      queue_tasks rest { st with errors := st.errors ++ ["UnrecognizedTaskName"] }

/-- Position of a processing state in the forward lifecycle order of the
state machine; `none` for anything else (error codes in particular). -/
def stateIndex (s : String) : Option Nat :=
  if s = "Queued" then some 0
  else if s = "Set up" then some 1
  else if s = "Ready to download" then some 2
  else if s = "Downloading" then some 3
  else if s = "Ready to convert" then some 4
  else if s = "Converting" then some 5
  else if s = "Ready to compress" then some 6
  else if s = "Compressing" then some 7
  else if s = "Wait" then some 8
  else none

/-- Invariant relating the `job_control` counters to the registry:
`n_jobs` counts the live entries, whose keys are strictly increasing and
below the next `job_index` (dict keys are handed out monotonically). -/
def JobsInv (st : AgentState) : Prop :=
  st.n_jobs = (st.jobs.length : Int) ∧
  (st.jobs.map (fun p => p.1)).Pairwise (· < ·) ∧
  ∀ p ∈ st.jobs, p.1 < st.job_index

/-! ## Concrete fixtures used by counterexamples and witnesses -/

/-- A queued download job as the translator builds it, minimal fields. -/
def jobC1 : Job := { type := "download", status := "qw" }

/-- Two queued download jobs, nothing running. -/
def stC1 : AgentState := add_job jobC1 (add_job jobC1 {})

/-- Global cap 1, per-type download cap 2. -/
def cfgC1 : Config := { max_running_jobs := 1, caps := [("download", 2)] }

/-- A ProteomeXchange record that parses but has no `fullDatasetLinks`
(and an empty `datasetFiles` list). -/
def pxC2 : PXData := { datasetFiles := some [] }

/-- Environment for the C2 scenario: the dataset directory and the
persisted record exist, the record parses to `pxC2`. -/
def envC2 : Env := {
  exists_ := fun p => p == "/data/PXD1" || p == "/data/PXD1/data/ProteomeXchange.json"
  mkdirOk := fun _ => false
  pxStatus := 200
  pxParse := some pxC2 }

/-- A freshly added dataset. -/
def dsC2 : Dataset := add_dataset "/data" "PXD1"

/-- A raw-file record already downloaded (READY). -/
def rawC6 : FileRec := {
  status := "READY"
  fileroot := "run1"
  filename := "run1.raw"
  full_path := "/data/PXD2/data/run1.raw"
  location := "/data/PXD2/data"
  is_complete := true }

/-- A dataset entering the conversion phase: one tracked raw file, no
mzML record, nothing converted on disk. -/
def dC6 : Dataset := {
  status := "PROCESSING"
  pstate := "Ready to convert"
  dataset_id := "PXD2"
  location := some "/data/PXD2"
  px_data := some {}
  ms_runs := [("run1", { raw_file := rawC6 })] }

/-- Environment where no file exists on disk (so no mzML output). -/
def envC6 : Env := { exists_ := fun _ => false, mkdirOk := fun _ => false, pxStatus := 200 }

/-- ProteomeXchange record holding an FTP link (C10 scenario). -/
def pxC10 : PXData :=
  { fullDatasetLinks := some [{ name := "Dataset FTP location", value := "ftp://h/x" }] }

/-- Environment in which every path exists and the persisted record
parses, so `assess_setup` runs end-to-end with no incidental failure. -/
def envC10 : Env := {
  exists_ := fun _ => true
  mkdirOk := fun _ => true
  pxStatus := 200
  pxParse := some pxC10 }

/-- A dataset already finished for the pass (Wait state). -/
def dW : Dataset := {
  status := "READY"
  pstate := "Wait"
  dataset_id := "PXD3"
  location := some "/data/PXD3" }

/-- The registry state for one running job with id 1. -/
def singleRunState (j : Job) : AgentState := {
  jobs := [(1, j)]
  job_index := 2
  n_jobs := 1
  n_running_jobs := 1
  byType := fun t => if t = j.type then 1 else 0 }

/-- The FileRecord a download job of the fixtures points at. -/
def recC4 : FileRec := {
  status := "TODO"
  fileroot := "r"
  filename := "r.raw"
  full_path := "/d/r.raw"
  location := "/d"
  uri := some "ftp://h/x/r.raw"
  is_complete := false }

/-- A translator-shaped download job with retry bound `m`. -/
def dlJob (m : Nat) : Job := {
  pid := none
  type := "download"
  args := ["curl", "-R", "-O", "-C", "-", "ftp://h/x/r.raw"]
  retry_staleness := some 30
  n_retries := some 0
  max_retries := some m
  file_handle := some 0
  location := "/d"
  status := "qw"
  handle := false
  expected_output_file := some "/d/r.raw" }

/-- Roomy caps so that launching is never blocked in the retry scenario. -/
def cfgC4 : Config := { max_running_jobs := 5, caps := [("download", 5)] }

/-- A poll environment in which every running job looks stalled: the
output file exists but was last modified 31 seconds ago (staleness
window 30), and jobs were launched at time 0. -/
def envC4 : PollEnv := {
  exited := fun _ => none
  fileExists := fun _ => true
  mtime := fun _ => 0
  now := 31
  size := fun _ => 7 }

/-- Initial scheduler state of the retry scenario: the download job just
added, its FileRecord in the store. -/
def retryState (m : Nat) : AgentState := add_job (dlJob m) { files := [recC4] }

/-- One scheduler cycle of the retry scenario: launch eligible jobs at
time 0, then poll under the always-stale environment. -/
def retryCycle (st : AgentState) : Option AgentState :=
  (launch_jobs cfgC4 0 st).bind (poll_jobs envC4)

/-- State after `k` staleness kills of the retry scenario. -/
def retryIter (m : Nat) : Nat → Option AgentState
  | 0 => some (retryState m)
  | k + 1 => (retryIter m k).bind retryCycle

/-- The job as it sits requeued after its `k`-th staleness kill. -/
def requeuedJob (m k : Nat) : Job :=
  { dlJob m with status := "redo", n_retries := some k, launch_timestamp := some 0 }

/-- Description of the scheduler state after `k` kills (`k = 0` is the
initial state): one live job carrying `n_retries = k`, no running job,
no error yet, and `job_index = k + 2` (so exactly `k` requeues so far). -/
def RetryInv (m k : Nat) (st : AgentState) : Prop :=
  st.jobs = [(k + 1, if k = 0 then dlJob m else requeuedJob m k)] ∧
  st.job_index = k + 2 ∧ st.n_jobs = 1 ∧ st.n_running_jobs = 0 ∧
  (∀ t, st.byType t = 0) ∧ st.errors = [] ∧ st.files = [recC4]

/-- The staleness-kill condition of `poll_jobs` for a job launched at
`lt` (src/lib/automation_agent.py:446-452): a positive declared window, a
declared output file that exists, and both ages beyond the window. -/
def staleCond (env : PollEnv) (j : Job) (lt : Int) : Prop :=
  ∃ w f, j.retry_staleness = some w ∧ 0 < w ∧ j.expected_output_file = some f ∧
    env.fileExists f = true ∧ w < env.now - env.mtime f ∧ w < env.now - lt

/-- A running job that declares no staleness window. -/
def jNoStale : Job := { type := "download", status := "run", launch_timestamp := some 0 }

/-- A FileRecord being downloaded by the job of `jX`. -/
def frX : FileRec := {
  status := "DOWNLOADING"
  fileroot := "r"
  filename := "r.raw"
  full_path := "/d/r.raw"
  location := "/d"
  is_complete := false }

/-- A running download job holding the back-reference to `frX`. -/
def jX : Job := { type := "download", status := "run", launch_timestamp := some 0,
                  file_handle := some 0 }

/-- A poll environment in which job 1 has exited and its file exists. -/
def envX : PollEnv := {
  exited := fun _ => some 0
  fileExists := fun _ => true
  mtime := fun _ => 0
  now := 0
  size := fun _ => 42 }

/-! ## Helper lemmas -/

theorem readCommandFrom_none (lines : List String) :
    ∀ acc cp, acc + totalLen lines ≤ cp → readCommandFrom lines acc cp = none := by
  induction lines with
  | nil => intro acc cp _; rfl
  | cons l rest ih =>
    intro acc cp h
    have htot : totalLen (l :: rest) = (l.length + 1) + totalLen rest := by
      simp [totalLen]
    rw [htot] at h
    rw [readCommandFrom, if_neg (by omega)]
    exact ih (acc + (l.length + 1)) cp (by omega)

theorem readCommandFrom_some (lines : List String) :
    ∀ acc cp s cp', readCommandFrom lines acc cp = some (s, cp') →
      cp < cp' ∧ acc < cp' ∧ cp' ≤ acc + totalLen lines := by
  induction lines with
  | nil => intro acc cp s cp' h; simp [readCommandFrom] at h
  | cons l rest ih =>
    intro acc cp s cp' h
    have htot : totalLen (l :: rest) = (l.length + 1) + totalLen rest := by
      simp [totalLen]
    rw [readCommandFrom] at h
    by_cases hgt : acc + (l.length + 1) > cp
    · rw [if_pos hgt, Option.some.injEq, Prod.mk.injEq] at h
      obtain ⟨-, h2⟩ := h
      omega
    · rw [if_neg hgt] at h
      have := ih (acc + (l.length + 1)) cp s cp' h
      omega

theorem splitLastChar_of_not_mem {sep : Char} {l : List Char} (h : sep ∉ l) :
    splitLastChar sep l = none := by
  induction l with
  | nil => rfl
  | cons c rest ih =>
    rw [splitLastChar, ih (fun hm => h (List.mem_cons_of_mem c hm))]
    exact if_neg (fun hc => h (by rw [← hc]; exact List.mem_cons_self c rest))

theorem splitLastChar_append_of_not_mem {sep : Char} {l : List Char} (h : sep ∉ l) :
    ∀ p, splitLastChar sep (p ++ sep :: l) = some (p, l) := by
  intro p
  induction p with
  | nil =>
    rw [List.nil_append, splitLastChar, splitLastChar_of_not_mem h]
    exact if_pos rfl
  | cons c p' ih =>
    rw [List.cons_append, splitLastChar, ih]

theorem splitLastChar_lift {sep : Char} {l q s : List Char}
    (h : splitLastChar sep l = some (q, s)) :
    ∀ x, splitLastChar sep (x ++ l) = some (x ++ q, s) := by
  intro x
  induction x with
  | nil => simpa using h
  | cons c x' ih =>
    rw [List.cons_append, splitLastChar, ih]
    rfl

theorem splitLastChar_isSome {sep : Char} {l : List Char} (h : sep ∈ l) :
    ∃ q s, splitLastChar sep l = some (q, s) := by
  induction l with
  | nil => cases h
  | cons c rest ih =>
    cases hr : splitLastChar sep rest with
    | some p =>
      refine ⟨c :: p.1, p.2, ?_⟩
      rw [splitLastChar, hr]
    | none =>
      rcases List.mem_cons.mp h with h1 | h2
      · refine ⟨[], rest, ?_⟩
        rw [splitLastChar, hr]
        exact if_pos h1.symm
      · obtain ⟨q, s, hqs⟩ := ih h2
        rw [hqs] at hr
        cases hr

theorem locationGroup_eq {loc : String} {p s : List Char}
    (h : splitLastChar '/' loc.data = some (p, s)) :
    locationGroup loc =
      if p ≠ [] ∧ s ≠ [] ∧ s.all goodChar then some (String.mk s) else none := by
  unfold locationGroup
  rw [h]

theorem locationGroup_eq_none {loc : String}
    (h : splitLastChar '/' loc.data = none) : locationGroup loc = none := by
  unfold locationGroup
  rw [h]

theorem splitLastChar_decomp {sep : Char} :
    ∀ {l q s : List Char}, splitLastChar sep l = some (q, s) →
      l = q ++ sep :: s ∧ sep ∉ s := by
  intro l
  induction l with
  | nil => intro q s h; cases h
  | cons c rest ih =>
    intro q s h
    rw [splitLastChar] at h
    cases hr : splitLastChar sep rest with
    | some p =>
      obtain ⟨p1, p2⟩ := p
      rw [hr] at h
      simp only [Option.some.injEq, Prod.mk.injEq] at h
      obtain ⟨hq, hs⟩ := h
      subst hq
      subst hs
      obtain ⟨hd, hn⟩ := ih hr
      rw [hd]
      exact ⟨rfl, hn⟩
    | none =>
      rw [hr] at h
      by_cases hc : c = sep
      · rw [if_pos hc] at h
        simp only [Option.some.injEq, Prod.mk.injEq] at h
        obtain ⟨hq, hs⟩ := h
        subst hq
        subst hs
        refine ⟨by rw [hc]; rfl, fun hm => ?_⟩
        obtain ⟨q', s', hqs⟩ := splitLastChar_isSome hm
        rw [hqs] at hr
        cases hr
      · rw [if_neg hc] at h
        cases h

/-! ## Claim theorems -/

/-- C7: with no lines appended past the persisted byte-offset cursor,
`read_command` returns no command; each consumed line strictly advances
the persisted cursor (bounded by the file length), the cursor is
monotonically non-decreasing across calls, and a consumed line is never
returned again (any later delivery ends strictly further into the file). -/
theorem read_command_cursor_spec (lines : List String) (cp : Nat) :
    (totalLen lines ≤ cp → read_command lines cp = none) ∧
    (∀ s cp', read_command lines cp = some (s, cp') → cp < cp' ∧ cp' ≤ totalLen lines) ∧
    cp ≤ nextPointer lines cp ∧
    (∀ s cp' s₂ cp'', read_command lines cp = some (s, cp') →
        read_command lines cp' = some (s₂, cp'') → cp' < cp'') := by
  refine ⟨?_, ?_, ?_, ?_⟩
  · intro h
    exact readCommandFrom_none lines 0 cp (by omega)
  · intro s cp' h
    have := readCommandFrom_some lines 0 cp s cp' h
    exact ⟨this.1, by omega⟩
  · unfold nextPointer
    cases hrc : read_command lines cp with
    | none => exact Nat.le_refl cp
    | some p =>
      obtain ⟨s, cp'⟩ := p
      have := readCommandFrom_some lines 0 cp s cp' hrc
      show cp ≤ cp'
      omega
  · intro s cp' s₂ cp'' _ h2
    exact (readCommandFrom_some lines 0 cp' s₂ cp'' h2).1

/-- Witness for C7 at a concrete file: the whole file already consumed,
a further read yields nothing. -/
theorem read_command_cursor_spec_witness :
    read_command ["get X"] 6 = none :=
  (read_command_cursor_spec ["get X"] 6).1 (by decide)

/-- C1 counterexample: with `max_running_jobs = 1` and a per-type
download cap of 2, one `launch_jobs` pass over two queued download jobs
launches both, ending with `n_running_jobs = 2 > 1`: the global cap is
checked only on entry (src/lib/automation_agent.py:384), never inside the
launch loop. -/
theorem launch_jobs_global_cap_counterexample :
    (launch_jobs cfgC1 0 stC1).map (fun s => s.n_running_jobs) = some 2 ∧
    cfgC1.max_running_jobs = 1 ∧ stC1.n_running_jobs = 0 := by
  exact ⟨rfl, rfl, rfl⟩

theorem launchLoop_byType_le (cfg : Config) (now : Int) :
    ∀ ids st st', launchLoop cfg now ids st = some st' →
      (∀ ty c, lookupCap cfg.caps ty = some c → st.byType ty ≤ c) →
      ∀ ty c, lookupCap cfg.caps ty = some c → st'.byType ty ≤ c := by
  intro ids
  induction ids with
  | nil =>
    intro st st' h hb
    rw [launchLoop] at h
    cases h
    exact hb
  | cons id rest ih =>
    intro st st' h hb
    rw [launchLoop] at h
    split at h
    · simp at h
    · split at h
      · simp at h
      · split at h
        · exact ih st st' h hb
        · rename_i _ j _ _ cap hc hge
          refine ih _ st' h ?_
          intro ty c hty
          by_cases hteq : ty = j.type
          · subst hteq
            have hcc : c = cap := by rw [hty] at hc; exact (Option.some.injEq _ _).mp hc
            simp only [updFn, if_pos rfl]
            omega
          · simp only [updFn, if_neg hteq]
            exact hb ty c hty

/-- C1 amended: after a completed `launch_jobs` pass the per-type running
counts respect their configured caps (given they did on entry), and the
global cap acts only as an entry gate: a pass entered with
`n_running_jobs` at or above `max_running_jobs` launches nothing.  Within
a pass the global total can exceed `max_running_jobs` (see the
counterexample), so only the per-type caps bound it. -/
theorem launch_jobs_caps_amended :
    (∀ cfg now (st : AgentState), cfg.max_running_jobs ≤ st.n_running_jobs →
        launch_jobs cfg now st = some st) ∧
    (∀ cfg now st st', launch_jobs cfg now st = some st' →
        (∀ ty c, lookupCap cfg.caps ty = some c → st.byType ty ≤ c) →
        ∀ ty c, lookupCap cfg.caps ty = some c → st'.byType ty ≤ c) := by
  constructor
  · intro cfg now st h
    unfold launch_jobs
    by_cases h0 : st.n_jobs = 0
    · rw [if_pos h0]
    · rw [if_neg h0, if_pos (by exact h)]
  · intro cfg now st st' h hb
    unfold launch_jobs at h
    by_cases h0 : st.n_jobs = 0
    · rw [if_pos h0] at h
      cases h
      exact hb
    · rw [if_neg h0] at h
      by_cases h1 : st.n_running_jobs ≥ cfg.max_running_jobs
      · rw [if_pos h1] at h
        cases h
        exact hb
      · rw [if_neg h1] at h
        exact launchLoop_byType_le cfg now _ st st' h hb

/-- Witness for C1's amended claim: a pass entered at the global cap
changes nothing. -/
theorem launch_jobs_caps_amended_witness :
    launch_jobs cfgC1 0 (singleRunState jobC1) = some (singleRunState jobC1) :=
  launch_jobs_caps_amended.1 cfgC1 0 (singleRunState jobC1) (by decide)

/-- C2 (code bug): `assess_setup` on a record without `fullDatasetLinks`
sets `status = ERROR` but (missing `return`,
src/lib/dataset_processor.py:259-267) still advances `processing_state`
to 'Ready to download'; the next `process_dataset` call then does fresh
work on the ERROR dataset: it creates the manifest record (DOWNLOADING),
emits one `download_file` task and advances the state to
'Ready to convert'. -/
theorem error_dataset_keeps_processing :
    (assess_setup envC2 dsC2).status = "ERROR" ∧
    (assess_setup envC2 dsC2).pstate = "Ready to download" ∧
    (process_dataset envC2 (assess_setup envC2 dsC2)).map
        (fun r => (r.1.pstate, r.1.manifest.map (fun m => m.status), r.2.length)) =
      some ("Ready to convert", some "DOWNLOADING", 1) := by
  exact ⟨rfl, rfl, rfl⟩

/-- C6 (code bug): a dataset entering 'Ready to convert' with a raw file
whose mzML record does not exist and whose mzML file is absent on disk is
moved straight to 'Wait' with no TODO record and no task: the
`assess_conversion` call is commented out (src/lib/dataset_processor.py:109-112),
its own transitions compare instead of assigning, and `assess_mzML` (the
only code that queues `convert_to_mzML`) is never called. -/
theorem conversion_phase_skipped :
    dC6.ms_runs.all (fun p => p.2.mzML_file.isNone) = true ∧
    envC6.exists_ "/data/PXD2/data/run1.mzML" = false ∧
    (process_dataset envC6 dC6).map (fun r => (r.1.pstate, r.2)) = some ("Wait", []) := by
  exact ⟨rfl, rfl, rfl⟩

/-- Counterexample to C10 as frozen: the dataset id "٥" (U+0665,
ARABIC-INDIC DIGIT FIVE) lies entirely outside uppercase `A-Z` and ASCII
`0-9`, yet Python's `\d` (the pattern is compiled on a `str` without
`re.ASCII`) matches it, so the location regex captures the id exactly
and `assess_setup` records no `InvalidLocation`: the dataset passes the
location check and completes setup normally. -/
theorem dataset_id_charset_counterexample :
    (∀ c ∈ ("٥" : String).data, ¬ (('A' ≤ c ∧ c ≤ 'Z') ∨ ('0' ≤ c ∧ c ≤ '9'))) ∧
    locationGroup (locStr (add_dataset "/data" "٥")) = some "٥" ∧
    assess_setup envC10 (add_dataset "/data" "٥") =
      { add_dataset "/data" "٥" with
          status := "PROCESSING"
          pstate := "Ready to download"
          px_data := some pxC10
          ftp_location := some "ftp://h/x" } := by
  refine ⟨by decide, by decide, by decide⟩

/-- C10 (amended): a dataset added via `add_dataset` (location is always
`base_dir/dataset_id`) is rejected by `assess_setup` with
`status = ERROR` and code `InvalidLocation` whenever the id contains any
character outside the regex class `[A-Z\d]` — uppercase `A-Z` together
with the Unicode decimal digits that Python's `\d` matches: the location
regex `.+?/([A-Z\d]+)$` then either fails outright or captures a group
that cannot equal the id, even though the location does end with the
id. -/
theorem dataset_id_charset_amended (env : Env) (base id : String)
    (h : ∃ c ∈ id.data, goodChar c = false) :
    assess_setup env (add_dataset base id) =
      { add_dataset base id with status := "ERROR", pstate := "InvalidLocation" } := by
  have hdata : (base ++ "/" ++ id).data = base.data ++ '/' :: id.data := by
    rw [String.data_append, String.data_append]
    simp
  have hball : id.data.all goodChar = false := by
    obtain ⟨c, hc, hbad⟩ := h
    exact List.all_eq_false.mpr ⟨c, hc, by simp [hbad]⟩
  have hgrp : locationGroup (base ++ "/" ++ id) = none ∨
      ∃ g, locationGroup (base ++ "/" ++ id) = some g ∧ g ≠ id := by
    by_cases hin : '/' ∈ id.data
    · obtain ⟨q, s, hqs⟩ := splitLastChar_isSome hin
      obtain ⟨hdec, hnot⟩ := splitLastChar_decomp hqs
      have hsplit : splitLastChar '/' (base ++ "/" ++ id).data =
          some ((base.data ++ ['/']) ++ q, s) := by
        rw [hdata]
        have hl := splitLastChar_lift hqs (base.data ++ ['/'])
        simpa [List.append_assoc] using hl
      rw [locationGroup_eq hsplit]
      by_cases hcond : (base.data ++ ['/']) ++ q ≠ [] ∧ s ≠ [] ∧ s.all goodChar
      · right
        refine ⟨String.mk s, by rw [if_pos hcond], fun heq => ?_⟩
        have hsid : s = id.data := congrArg String.data heq
        have hlen : id.data.length = q.length + 1 + s.length := by
          rw [hdec]
          simp [List.length_append]
          omega
        rw [← hsid] at hlen
        omega
      · left
        rw [if_neg hcond]
    · left
      have hsplit : splitLastChar '/' (base ++ "/" ++ id).data = some (base.data, id.data) := by
        rw [hdata]
        exact splitLastChar_append_of_not_mem hin base.data
      rw [locationGroup_eq hsplit, if_neg]
      intro hcond
      rw [hball] at hcond
      simp at hcond
  rcases hgrp with hnone | ⟨g, hg, hne⟩
  · unfold assess_setup
    simp only [add_dataset, assess_setup_checked]
    rw [hnone]
    rfl
  · unfold assess_setup
    simp only [add_dataset, assess_setup_checked]
    rw [hg]
    show (if g ≠ id then _ else _) = _
    rw [if_pos hne]
    rfl

/-- Witness for C10 (amended): a lowercase dataset id is rejected. -/
theorem dataset_id_charset_amended_witness :
    assess_setup envC2 (add_dataset "/data" "pxd1") =
      { add_dataset "/data" "pxd1" with status := "ERROR", pstate := "InvalidLocation" } :=
  dataset_id_charset_amended envC2 "/data" "pxd1" ⟨'p', by decide, by decide⟩

/-- C9: every job the task translator builds has type 'download' — the
`convert_to_mzML` branch too (src/lib/automation_agent.py:528); hence the
cap `launch_jobs` consults for a translated job is the 'download' cap,
and on exit such a job gets the download-completion handling of
`poll_jobs`: FileRecord marked READY with its size when the file exists,
the job requeued when it does not. -/
theorem translator_jobs_are_downloads :
    (∀ idx t j, translateTask idx t = some (.job j) → j.type = "download") ∧
    (∀ (cfg : Config) (j : Job), j.type = "download" →
        lookupCap cfg.caps j.type = lookupCap cfg.caps "download") ∧
    (∀ env files id (j : Job) idx fr rc, j.status = "run" → j.type = "download" →
        env.exited id = some rc → j.file_handle = some idx → files.get? idx = some fr →
        pollOne env files id j =
          some (if env.fileExists fr.full_path then
                  PollAct.exited (some (idx, env.size fr.full_path)) none
                else PollAct.exited none (some j))) ∧
    (∀ files idx sz (fr : FileRec), files.get? idx = some fr →
        applyFileUpd files (.exited (some (idx, sz)) none) =
          files.set idx { fr with
                          status := "READY"
                          is_complete := true
                          current_size := some sz }) := by
  refine ⟨?_, ?_, ?_, ?_⟩
  · intro idx t j h
    unfold translateTask at h
    by_cases h1 : t.command = "download_file"
    · rw [if_pos h1] at h
      cases hu : t.file_metadata.uri with
      | none => rw [hu] at h; cases h
      | some uri =>
        rw [hu] at h
        simp only [Option.some.injEq, TransResult.job.injEq] at h
        rw [← h]
    · rw [if_neg h1] at h
      by_cases h2 : t.command = "convert_to_mzML"
      · rw [if_pos h2] at h
        simp only [Option.some.injEq, TransResult.job.injEq] at h
        rw [← h]
      · rw [if_neg h2] at h
        cases h
  · intro cfg j h
    rw [h]
  · intro env files id j idx fr rc hrun htype hex hfh hfr
    have hfr' : files[idx]? = some fr := by rw [← List.get?_eq_getElem?]; exact hfr
    by_cases hfe : env.fileExists fr.full_path
    · simp [pollOne, hrun, hex, htype, hfh, hfr', hfe]
    · simp [pollOne, hrun, hex, htype, hfh, hfr', hfe]
  · intro files idx sz fr hfr
    have hfr' : files[idx]? = some fr := by rw [← List.get?_eq_getElem?]; exact hfr
    simp [applyFileUpd, hfr']

/-- Witness for C9: the exited running download job `jX` (file present)
is closed out with its FileRecord update. -/
theorem translator_jobs_are_downloads_witness :
    pollOne envX [frX] 1 jX = some (.exited (some (0, 42)) none) := by
  have h := translator_jobs_are_downloads.2.2.1 envX [frX] 1 jX 0 frX 0 rfl rfl rfl rfl rfl
  simpa using h

theorem poll_jobs_single_skip (env : PollEnv) (j : Job)
    (hact : pollOne env [] 1 j = some .skip) :
    poll_jobs env (singleRunState j) = some (singleRunState j) := by
  simp [poll_jobs, singleRunState, pollScan, hact, applyFileUpd, applyCounters, restartOf,
        isDelete, memId]

theorem poll_jobs_single_kill (env : PollEnv) (j : Job) (fatal : Bool) (j' : Job)
    (hact : pollOne env [] 1 j = some (.kill fatal j')) :
    (poll_jobs env (singleRunState j)).map (fun s => s.jobs) =
      some (if fatal then [] else [(2, requeueJob j')]) := by
  cases fatal
  · simp [poll_jobs, singleRunState, pollScan, hact, applyFileUpd, applyCounters, restartOf,
          isDelete, add_job, memId]
  · simp [poll_jobs, singleRunState, pollScan, hact, applyFileUpd, applyCounters, restartOf,
          isDelete, add_job, memId]

/-- C3: under `poll_jobs` a still-running job is terminated for staleness
iff it declares a positive `retry_staleness` window and an
`expected_output_file`, that file exists, and both the file's age and the
job's running time exceed the window (`staleCond`); in particular a
running job whose output file does not exist yet is never killed,
regardless of elapsed time.  (Registry with the single running job under
id 1.) -/
theorem stale_kill_iff (env : PollEnv) (j : Job) (lt : Int)
    (hrun : j.status = "run") (hlt : j.launch_timestamp = some lt)
    (hex : env.exited 1 = none) :
    ∃ st', poll_jobs env (singleRunState j) = some st' ∧
      ((¬ ∃ jj, (1, jj) ∈ st'.jobs) ↔ staleCond env j lt) := by
  have skipCase : pollOne env [] 1 j = some .skip → ¬ staleCond env j lt →
      ∃ st', poll_jobs env (singleRunState j) = some st' ∧
        ((¬ ∃ jj, (1, jj) ∈ st'.jobs) ↔ staleCond env j lt) := by
    intro hact hno
    refine ⟨singleRunState j, poll_jobs_single_skip env j hact, ?_⟩
    constructor
    · intro habs
      exact absurd ⟨j, by simp [singleRunState]⟩ habs
    · intro hcond
      exact absurd hcond hno
  rcases hrs : j.retry_staleness with _ | w
  · refine skipCase (by simp [pollOne, hrun, hex, hrs]) ?_
    rintro ⟨w, f, hw, -⟩
    rw [hrs] at hw
    cases hw
  · rcases hout : j.expected_output_file with _ | f
    · refine skipCase (by simp [pollOne, hrun, hex, hrs, hout]) ?_
      rintro ⟨w', f, -, -, hf, -⟩
      rw [hout] at hf
      cases hf
    · by_cases hw : 0 < w
      · by_cases hfe : env.fileExists f
        · by_cases hages : w < env.now - env.mtime f ∧ w < env.now - lt
          · -- stale: the job is killed
            have hact : pollOne env [] 1 j =
                some (.kill (decide (j.n_retries.getD 0 + 1 > j.max_retries.getD 10))
                  { j with n_retries := some (j.n_retries.getD 0 + 1),
                           max_retries := some (j.max_retries.getD 10) }) := by
              simp [pollOne, hrun, hex, hrs, hout, hw, hfe, hlt, hages.1, hages.2]
            have hmap := poll_jobs_single_kill env j _ _ hact
            cases hpoll : poll_jobs env (singleRunState j) with
            | none => rw [hpoll] at hmap; cases hmap
            | some st' =>
              rw [hpoll] at hmap
              simp only [Option.map_some', Option.some.injEq] at hmap
              refine ⟨st', rfl, ?_⟩
              constructor
              · intro _
                exact ⟨w, f, hrs, hw, hout, hfe, hages.1, hages.2⟩
              · intro _
                rintro ⟨jj, hjj⟩
                rw [hmap] at hjj
                by_cases hfat : (j.n_retries.getD 0 + 1 > j.max_retries.getD 10)
                · simp [hfat] at hjj
                · simp [hfat] at hjj
          · refine skipCase ?_ ?_
            · rcases Decidable.not_and_iff_or_not.mp hages with h1 | h1
              · simp [pollOne, hrun, hex, hrs, hout, hw, hfe, hlt, h1]
              · simp [pollOne, hrun, hex, hrs, hout, hw, hfe, hlt, h1]
            · rintro ⟨w', f', hw', -, hf', -, ha1, ha2⟩
              rw [hrs] at hw'
              rw [hout] at hf'
              cases hw'
              cases hf'
              exact hages ⟨ha1, ha2⟩
        · refine skipCase (by simp [pollOne, hrun, hex, hrs, hout, hw, hfe]) ?_
          rintro ⟨w', f', hw', -, hf', hfe', -⟩
          rw [hout] at hf'
          cases hf'
          rw [hfe'] at hfe
          exact hfe rfl
      · refine skipCase (by simp [pollOne, hrun, hex, hrs, hout, hw]) ?_
        rintro ⟨w', f', hw', hpos, -⟩
        rw [hrs] at hw'
        cases hw'
        exact hw hpos

/-- Witness for C3: a running job with no staleness declaration survives
the poll untouched. -/
theorem stale_kill_iff_witness :
    ∃ st', poll_jobs envC4 (singleRunState jNoStale) = some st' ∧
      ((¬ ∃ jj, (1, jj) ∈ st'.jobs) ↔ staleCond envC4 jNoStale 0) :=
  stale_kill_iff envC4 jNoStale 0 rfl rfl rfl

theorem manifest_step_fields (env : Env) (ftp_dir : String) (d : Dataset) :
    ∀ r, manifest_step env ftp_dir d = some r →
      r.1.pstate = d.pstate ∧ r.1.status = d.status := by
  intro r h
  simp only [manifest_step] at h
  repeat' split at h
  all_goals cases h
  all_goals exact ⟨rfl, rfl⟩

theorem collect_runs_error (d : Dataset) :
    ∀ files de, collect_runs d files = .error de → de.status = "ERROR" := by
  intro files
  induction files with
  | nil => intro de h; cases h
  | cons f rest ih =>
    intro de h
    rw [collect_runs] at h
    by_cases hn : f.name = "Associated raw file URI"
    · rw [if_pos hn] at h
      split at h
      · split at h
        · cases h; rfl
        · split at h
          · rename_i heq
            cases h
            exact ih _ heq
          · cases h
      · cases h; rfl
    · rw [if_neg hn] at h
      exact ih _ h

theorem assess_conversion_id (d : Dataset) :
    ∀ r, assess_conversion d = some r → r = d := by
  intro r h
  unfold assess_conversion at h
  split at h
  · cases h; rfl
  · cases h

theorem enum_runs_out (env : Env) :
    ∀ runs d ts missing r, enum_runs env d ts missing runs = some r →
      (r.2.2.2 = true → r.1.status = "ERROR") ∧
      (r.2.2.2 = false → r.1.pstate = d.pstate ∨ r.1.pstate = "Downloading") := by
  intro runs
  induction runs with
  | nil =>
    intro d ts missing r h
    cases h
    refine ⟨fun hf => ?_, fun _ => Or.inl rfl⟩
    cases hf
  | cons p rest ih =>
    intro d ts missing r h
    obtain ⟨fnOpt, uri⟩ := p
    simp only [enum_runs] at h
    split at h
    · cases h
    · split at h
      · cases h
        exact ⟨fun _ => rfl, fun hf => by cases hf⟩
      · split at h
        · cases h
          exact ⟨fun _ => rfl, fun hf => by cases hf⟩
        · split at h
          · split at h
            · cases h
            · exact ih d ts missing r h
          · split at h
            · have hrec := ih _ _ _ r h
              refine ⟨hrec.1, fun hf => ?_⟩
              rcases hrec.2 hf with h1 | h1
              · exact Or.inl (by simpa using h1)
              · exact Or.inr h1
            · have hrec := ih _ _ _ r h
              refine ⟨hrec.1, fun hf => ?_⟩
              rcases hrec.2 hf with h1 | h1
              · exact Or.inr (by simpa using h1)
              · exact Or.inr h1

theorem finishDownload_out (mode : String) (d : Dataset) (ts : List Task) (missing : Bool)
    (previous : List String) :
    (finishDownload mode d ts missing previous).1.pstate = d.pstate ∨
    (finishDownload mode d ts missing previous).1.pstate = "Ready to convert" ∨
    (finishDownload mode d ts missing previous).1.status = "ERROR" := by
  unfold finishDownload
  repeat' split
  · exact Or.inl rfl
  · exact Or.inr (Or.inr rfl)
  · exact Or.inr (Or.inl rfl)

theorem runsEOf_error (env : Env) (px : PXData) (d2 : Dataset) (ts : List Task) :
    ∀ r0, runsEOf env px d2 ts = .error r0 → r0.1.status = "ERROR" := by
  intro r0 h
  unfold runsEOf at h
  split at h
  · split at h
    · rename_i de hce
      cases h
      exact collect_runs_error _ _ _ hce
    · cases h
  · split at h
    · cases h; rfl
    · split at h
      · cases h; rfl
      · cases h

theorem runsEOf_ok (env : Env) (px : PXData) (d2 : Dataset) (ts : List Task) :
    ∀ d2' runs, runsEOf env px d2 ts = .ok (d2', runs) → d2'.pstate = d2.pstate := by
  intro d2' runs h
  unfold runsEOf at h
  split at h
  · split at h
    · cases h
    · cases h; rfl
  · split at h
    · cases h
    · split at h
      · cases h
      · cases h; rfl

theorem assess_download_enum_out (env : Env) (mode : String) (previous : List String)
    (ts : List Task) (dp : String)
    (runsE : Except (Dataset × List Task) (Dataset × List (Option String × String)))
    (herr : ∀ r0, runsE = .error r0 → r0.1.status = "ERROR")
    (hok : ∀ d2' runs, runsE = .ok (d2', runs) → d2'.pstate = dp) :
    ∀ r, assess_download_enum env mode previous ts runsE = some r →
      r.1.pstate = dp ∨ r.1.pstate = "Downloading" ∨
      r.1.pstate = "Ready to convert" ∨ r.1.status = "ERROR" := by
  intro r h
  cases runsE with
  | error r0 =>
    simp only [assess_download_enum] at h
    injection h with h'
    subst h'
    exact Or.inr (Or.inr (Or.inr (herr r0 rfl)))
  | ok pr =>
    obtain ⟨d2', runs⟩ := pr
    simp only [assess_download_enum] at h
    have hps := hok d2' runs rfl
    cases henum : enum_runs env d2' ts false runs with
    | none => rw [henum] at h; cases h
    | some q =>
      obtain ⟨d3, ts3, missing, early⟩ := q
      simp only [henum] at h
      have hout := enum_runs_out env runs d2' ts false _ henum
      cases early with
      | true =>
        rw [if_pos rfl] at h
        injection h with h'
        subst h'
        exact Or.inr (Or.inr (Or.inr (hout.1 rfl)))
      | false =>
        rw [if_neg (by decide)] at h
        injection h with h'
        subst h'
        rcases hout.2 rfl with h1 | h1
        · rcases finishDownload_out mode d3 ts3 missing previous with h2 | h2 | h2
          · exact Or.inl (by rw [h2, h1, hps])
          · exact Or.inr (Or.inr (Or.inl h2))
          · exact Or.inr (Or.inr (Or.inr h2))
        · rcases finishDownload_out mode d3 ts3 missing previous with h2 | h2 | h2
          · exact Or.inr (Or.inl (by rw [h2, h1]))
          · exact Or.inr (Or.inr (Or.inl h2))
          · exact Or.inr (Or.inr (Or.inr h2))

theorem assess_download_body_out (env : Env) (px : PXData) (mode ftp_dir : String)
    (d1 : Dataset) :
    ∀ r, assess_download_body env px mode ftp_dir d1 = some r →
      r.1.pstate = d1.pstate ∨ r.1.pstate = "Downloading" ∨
      r.1.pstate = "Ready to convert" ∨ r.1.status = "ERROR" := by
  intro r h
  unfold assess_download_body at h
  split at h
  · cases h
  · rename_i r2 hms
    have hmf := (manifest_step_fields env _ _ _ hms).1
    split at h
    · have := assess_download_enum_out env mode _ _ r2.1.pstate _
        (runsEOf_error env px r2.1 r2.2) (runsEOf_ok env px r2.1 r2.2) r h
      rcases this with h1 | h1 | h1 | h1
      · exact Or.inl (by rw [h1, hmf])
      · exact Or.inr (Or.inl h1)
      · exact Or.inr (Or.inr (Or.inl h1))
      · exact Or.inr (Or.inr (Or.inr h1))
    · cases h
      rcases finishDownload_out mode r2.1 r2.2 false
          (List.map (fun p => p.1) r2.1.ms_runs) with h2 | h2 | h2
      · exact Or.inl (by rw [h2, hmf])
      · exact Or.inr (Or.inr (Or.inl h2))
      · exact Or.inr (Or.inr (Or.inr h2))

theorem assess_download_out (env : Env) (d : Dataset) :
    ∀ r, assess_download env d = some r →
      r.1.pstate = d.pstate ∨ r.1.pstate = "Downloading" ∨
      r.1.pstate = "Ready to convert" ∨ r.1.status = "ERROR" := by
  intro r h
  unfold assess_download at h
  split at h
  · cases h
  · have := assess_download_body_out env _ _ _ _ r h
    simpa using this

theorem setup_stage1_error (env : Env) (mode : String) (d : Dataset) (loc : String) :
    ∀ d1, setup_stage1 env mode d loc = .error d1 → d1.status = "ERROR" := by
  intro d1 h
  unfold setup_stage1 at h
  split at h
  · split at h
    · dsimp only at h
      split at h
      · injection h with h'
        rw [← h']
        assumption
      · cases h
    · injection h with h'
      rw [← h']
      rfl
  · cases h

theorem setup_stage2_error (env : Env) (mode : String) (d1 : Dataset)
    (fs1 : String → Bool) (loc : String) :
    ∀ d2, setup_stage2 env mode d1 fs1 loc = .error d2 → d2.status = "ERROR" := by
  intro d2 h
  unfold setup_stage2 at h
  split at h
  · split at h
    · dsimp only at h
      split at h
      · injection h with h'
        rw [← h']
        assumption
      · cases h
    · injection h with h'
      rw [← h']
      rfl
  · cases h

theorem setup_finish_out (env : Env) (d2 : Dataset) :
    (setup_finish env d2).pstate = "Ready to download" ∨
    (setup_finish env d2).status = "ERROR" := by
  unfold setup_finish
  split
  · exact Or.inr rfl
  · dsimp only
    split
    · exact Or.inl rfl
    · exact Or.inl rfl

theorem assess_setup_checked_out (env : Env) (d : Dataset) :
    (assess_setup_checked env d).pstate = "Ready to download" ∨
    (assess_setup_checked env d).status = "ERROR" := by
  unfold assess_setup_checked
  split
  · exact Or.inr rfl
  · split
    · exact Or.inr rfl
    · split
      · exact Or.inr rfl
      · split
        · rename_i d1 hs1
          exact Or.inr (setup_stage1_error env _ _ _ d1 hs1)
        · split
          · rename_i d2 hs2
            exact Or.inr (setup_stage2_error env _ _ _ _ d2 hs2)
          · exact setup_finish_out env _

theorem assess_setup_out (env : Env) (d : Dataset) :
    (assess_setup env d).pstate = "Ready to download" ∨
    (assess_setup env d).status = "ERROR" :=
  assess_setup_checked_out env { d with status := "PROCESSING" }

/-- C5: `process_dataset` never moves `processing_state` backward: when a
call completes from a state in the defined lifecycle order, the new state
is at the same or a later position in that order, or the dataset has
moved to an ERROR outcome (`status = "ERROR"`, its state carrying the
error code). -/
theorem pstate_forward_only (env : Env) (d d' : Dataset) (ts : List Task)
    (h : process_dataset env d = some (d', ts)) (i : Nat)
    (hi : stateIndex d.pstate = some i) :
    (∃ j, stateIndex d'.pstate = some j ∧ i ≤ j) ∨ d'.status = "ERROR" := by
  simp only [process_dataset] at h
  rw [if_neg (by decide : ¬ ("PROCESSING" = "ERROR"))] at h
  by_cases hq1 : d.pstate = "Queued"
  · rw [if_pos hq1] at h
    rw [Option.some.injEq, Prod.mk.injEq] at h
    obtain ⟨hd, -⟩ := h
    rw [hq1, show stateIndex "Queued" = some 0 from by decide, Option.some.injEq] at hi
    rcases assess_setup_out env _ with h1 | h1
    · refine Or.inl ⟨2, ?_, by omega⟩
      rw [← hd, h1]
      decide
    · exact Or.inr (by rw [← hd]; exact h1)
  · rw [if_neg hq1] at h
    by_cases hq2 : d.pstate = "Set up"
    · rw [if_pos hq2] at h
      rw [Option.some.injEq, Prod.mk.injEq] at h
      obtain ⟨hd, -⟩ := h
      rw [hq2, show stateIndex "Set up" = some 1 from by decide, Option.some.injEq] at hi
      rcases assess_setup_out env _ with h1 | h1
      · refine Or.inl ⟨2, ?_, by omega⟩
        rw [← hd, h1]
        decide
      · exact Or.inr (by rw [← hd]; exact h1)
    · rw [if_neg hq2] at h
      by_cases hq3 : d.pstate = "Ready to download"
      · rw [if_pos hq3] at h
        rw [hq3, show stateIndex "Ready to download" = some 2 from by decide,
            Option.some.injEq] at hi
        have hout := assess_download_out env _ _ h
        dsimp only at hout
        rcases hout with h1 | h1 | h1 | h1
        · refine Or.inl ⟨2, ?_, by omega⟩
          rw [h1, hq3]
          decide
        · refine Or.inl ⟨3, ?_, by omega⟩
          rw [h1]
          decide
        · refine Or.inl ⟨4, ?_, by omega⟩
          rw [h1]
          decide
        · exact Or.inr h1
      · rw [if_neg hq3] at h
        by_cases hq4 : d.pstate = "Downloading"
        · rw [if_pos hq4] at h
          rw [hq4, show stateIndex "Downloading" = some 3 from by decide,
              Option.some.injEq] at hi
          have hout := assess_download_out env _ _ h
          dsimp only at hout
          rcases hout with h1 | h1 | h1 | h1
          · refine Or.inl ⟨3, ?_, by omega⟩
            rw [h1, hq4]
            decide
          · refine Or.inl ⟨3, ?_, by omega⟩
            rw [h1]
            decide
          · refine Or.inl ⟨4, ?_, by omega⟩
            rw [h1]
            decide
          · exact Or.inr h1
        · rw [if_neg hq4] at h
          by_cases hq5 : d.pstate = "Ready to convert"
          · rw [if_pos hq5] at h
            rw [Option.some.injEq, Prod.mk.injEq] at h
            obtain ⟨hd, -⟩ := h
            rw [hq5, show stateIndex "Ready to convert" = some 4 from by decide,
                Option.some.injEq] at hi
            refine Or.inl ⟨8, ?_, by omega⟩
            rw [← hd]
            dsimp only
            decide
          · rw [if_neg hq5] at h
            by_cases hq6 : d.pstate = "Converting"
            · rw [if_pos hq6] at h
              cases hc : assess_conversion { d with status := "PROCESSING" } with
              | none =>
                simp only [hc, Option.map_none'] at h
                cases h
              | some r =>
                have hr := assess_conversion_id _ _ hc
                subst hr
                simp only [hc, Option.map_some', Option.some.injEq, Prod.mk.injEq] at h
                obtain ⟨hd, -⟩ := h
                rw [hq6, show stateIndex "Converting" = some 5 from by decide,
                    Option.some.injEq] at hi
                refine Or.inl ⟨5, ?_, by omega⟩
                rw [← hd]
                dsimp only
                rw [hq6]
                decide
            · rw [if_neg hq6] at h
              by_cases hq7 : d.pstate = "Ready to compress"
              · rw [if_pos hq7] at h
                cases hc : assess_conversion { d with status := "PROCESSING" } with
                | none =>
                  simp only [hc] at h
                  cases h
                | some r =>
                  have hr := assess_conversion_id _ _ hc
                  subst hr
                  simp only [hc] at h
                  rw [if_pos hq7] at h
                  simp [compress_dataset] at h
              · rw [if_neg hq7] at h
                by_cases hq8 : d.pstate = "Compressing"
                · rw [if_pos hq8] at h
                  cases hc : assess_conversion { d with status := "PROCESSING" } with
                  | none =>
                    simp only [hc, Option.map_none'] at h
                    cases h
                  | some r =>
                    have hr := assess_conversion_id _ _ hc
                    subst hr
                    simp only [hc, Option.map_some', Option.some.injEq, Prod.mk.injEq] at h
                    obtain ⟨hd, -⟩ := h
                    rw [hq8, show stateIndex "Compressing" = some 7 from by decide,
                        Option.some.injEq] at hi
                    refine Or.inl ⟨7, ?_, by omega⟩
                    rw [← hd]
                    dsimp only
                    rw [hq8]
                    decide
                · rw [if_neg hq8] at h
                  by_cases hq9 : d.pstate = "Wait"
                  · rw [if_pos hq9] at h
                    rw [Option.some.injEq, Prod.mk.injEq] at h
                    obtain ⟨hd, -⟩ := h
                    rw [hq9, show stateIndex "Wait" = some 8 from by decide,
                        Option.some.injEq] at hi
                    refine Or.inl ⟨8, ?_, by omega⟩
                    rw [← hd]
                    dsimp only
                    rw [hq9]
                    decide
                  · rw [if_neg hq9] at h
                    rw [Option.some.injEq, Prod.mk.injEq] at h
                    obtain ⟨hd, -⟩ := h
                    exact Or.inr (by rw [← hd])

/-- Witness for C5: processing a Wait-state dataset completes and stays
at position 8 of the order. -/
theorem pstate_forward_only_witness :
    (∃ j, stateIndex ({ dW with status := "READY" } : Dataset).pstate = some j ∧ 8 ≤ j) ∨
    ({ dW with status := "READY" } : Dataset).status = "ERROR" :=
  pstate_forward_only envC6 dW { dW with status := "READY" } [] (by decide) 8 (by decide)

theorem memId_iff (ids : List Nat) (k : Nat) : memId ids k = true ↔ k ∈ ids := by
  induction ids with
  | nil =>
    rw [memId]
    simp
  | cons i rest ih =>
    rw [memId]
    by_cases hik : i = k
    · rw [if_pos hik]
      simp [hik]
    · rw [if_neg hik]
      rw [ih]
      constructor
      · intro hm
        exact List.mem_cons_of_mem i hm
      · intro hm
        rcases List.mem_cons.mp hm with hm | hm
        · exact absurd hm.symm hik
        · exact hm

theorem setJob_keys (jobs : List (Nat × Job)) (id : Nat) (j : Job) :
    (setJob jobs id j).map (fun p => p.1) = jobs.map (fun p => p.1) := by
  unfold setJob
  induction jobs with
  | nil => rfl
  | cons p rest ih =>
    have hh : (if p.1 = id then (p.1, j) else p).1 = p.1 := by
      by_cases hp : p.1 = id
      · rw [if_pos hp]
      · rw [if_neg hp]
    simp only [List.map_cons, hh, ih]

theorem setJob_length (jobs : List (Nat × Job)) (id : Nat) (j : Job) :
    (setJob jobs id j).length = jobs.length := by
  simp [setJob]

theorem jobsInv_add (j : Job) (st : AgentState) (h : JobsInv st) : JobsInv (add_job j st) := by
  obtain ⟨h1, h2, h3⟩ := h
  refine ⟨?_, ?_, ?_⟩
  · simp only [add_job, List.length_append, List.length_cons, List.length_nil]
    rw [h1]
    push_cast
    ring
  · simp only [add_job, List.map_append, List.map_cons, List.map_nil]
    rw [List.pairwise_append]
    refine ⟨h2, List.pairwise_singleton _ _, ?_⟩
    intro a ha b hb
    simp only [List.mem_cons, List.not_mem_nil, or_false] at hb
    subst hb
    obtain ⟨p, hp, hpa⟩ := List.mem_map.mp ha
    rw [← hpa]
    exact h3 p hp
  · intro p hp
    simp only [add_job, List.mem_append, List.mem_cons, List.not_mem_nil, or_false] at hp
    rcases hp with hp | hp
    · exact Nat.lt_trans (h3 p hp) (Nat.lt_succ_self _)
    · rw [hp]
      exact Nat.lt_succ_self _

theorem launchLoop_skeleton (cfg : Config) (now : Int) :
    ∀ ids st st', launchLoop cfg now ids st = some st' →
      st'.jobs.map (fun p => p.1) = st.jobs.map (fun p => p.1) ∧
      st'.n_jobs = st.n_jobs ∧ st'.job_index = st.job_index ∧
      st'.jobs.length = st.jobs.length := by
  intro ids
  induction ids with
  | nil =>
    intro st st' h
    rw [launchLoop] at h
    cases h
    exact ⟨rfl, rfl, rfl, rfl⟩
  | cons id rest ih =>
    intro st st' h
    rw [launchLoop] at h
    split at h
    · cases h
    · split at h
      · cases h
      · split at h
        · exact ih st st' h
        · obtain ⟨k1, k2, k3, k4⟩ := ih _ st' h
          refine ⟨?_, k2, k3, ?_⟩
          · rw [k1]
            exact setJob_keys _ _ _
          · rw [k4]
            exact setJob_length _ _ _

theorem jobsInv_launch (cfg : Config) (now : Int) (st st' : AgentState)
    (h : JobsInv st) (hl : launch_jobs cfg now st = some st') : JobsInv st' := by
  unfold launch_jobs at hl
  split at hl
  · cases hl
    exact h
  · split at hl
    · cases hl
      exact h
    · obtain ⟨k1, k2, k3, k4⟩ := launchLoop_skeleton cfg now _ st st' hl
      obtain ⟨h1, h2, h3⟩ := h
      refine ⟨?_, ?_, ?_⟩
      · rw [k2, k4, h1]
      · rw [k1]
        exact h2
      · intro p hp
        have hm : p.1 ∈ st'.jobs.map (fun q => q.1) := List.mem_map.mpr ⟨p, hp, rfl⟩
        rw [k1] at hm
        obtain ⟨q, hq, hpq⟩ := List.mem_map.mp hm
        rw [k3, ← hpq]
        exact h3 q hq

theorem pollScan_proj (env : PollEnv) :
    ∀ (jobs : List (Nat × Job)) files acts files',
      pollScan env files jobs = some (acts, files') →
      acts.map (fun a => (a.1, a.2.1)) = jobs := by
  intro jobs
  induction jobs with
  | nil =>
    intro files acts files' h
    rw [pollScan] at h
    cases h
    rfl
  | cons p rest ih =>
    intro files acts files' h
    obtain ⟨id, j⟩ := p
    rw [pollScan] at h
    split at h
    · cases h
    · split at h
      · cases h
      · rename_i act hact r hr
        cases h
        simp only [List.map_cons]
        rw [ih _ r.1 r.2 (by rw [hr])]

theorem counters_fold (acts : List (Nat × Job × PollAct)) :
    ∀ s : AgentState,
      (acts.foldl (fun s a => applyCounters s a.2.1 a.2.2) s).jobs = s.jobs ∧
      (acts.foldl (fun s a => applyCounters s a.2.1 a.2.2) s).job_index = s.job_index ∧
      (acts.foldl (fun s a => applyCounters s a.2.1 a.2.2) s).n_jobs =
        s.n_jobs - ((acts.filter (fun a => isDelete a.2.2)).length : Int) := by
  induction acts with
  | nil =>
    intro s
    simp
  | cons a rest ih =>
    intro s
    have happ : (applyCounters s a.2.1 a.2.2).jobs = s.jobs ∧
        (applyCounters s a.2.1 a.2.2).job_index = s.job_index ∧
        (applyCounters s a.2.1 a.2.2).n_jobs =
          s.n_jobs - (if isDelete a.2.2 then (1 : Int) else 0) := by
      cases hact : a.2.2 <;> simp [applyCounters, isDelete, hact]
    obtain ⟨hj, hx, hn⟩ := happ
    obtain ⟨ij, ix, inn⟩ := ih (applyCounters s a.2.1 a.2.2)
    simp only [List.foldl_cons, List.filter_cons]
    refine ⟨by rw [ij, hj], by rw [ix, hx], ?_⟩
    rw [inn, hn]
    by_cases hd : isDelete a.2.2
    · rw [if_pos hd, if_pos hd]
      simp only [List.length_cons]
      push_cast
      ring
    · rw [if_neg hd, if_neg hd]
      ring

theorem filter_length_split (l : List (Nat × Job × PollAct)) (p : Nat × Job × PollAct → Bool) :
    (l.filter (fun a => ! p a)).length + (l.filter p).length = l.length := by
  induction l with
  | nil => rfl
  | cons a rest ih =>
    simp only [List.filter_cons]
    by_cases hp : p a
    · rw [if_pos hp, if_neg (by simp [hp])]
      simp only [List.length_cons]
      omega
    · rw [if_neg hp, if_pos (by simp [hp])]
      simp only [List.length_cons]
      omega

theorem filter_map_pred (acts : List (Nat × Job × PollAct)) (del : List Nat) :
    ((acts.map (fun a => (a.1, a.2.1))).filter (fun p => ! memId del p.1)) =
      ((acts.filter (fun a => ! memId del a.1)).map (fun a => (a.1, a.2.1))) := by
  induction acts with
  | nil => rfl
  | cons a rest ih =>
    simp only [List.map_cons, List.filter_cons]
    by_cases hp : (! memId del a.1) = true
    · rw [if_pos hp, if_pos hp]
      simp only [List.map_cons]
      rw [ih]
    · rw [if_neg hp, if_neg hp]
      exact ih

theorem dels_filter (acts : List (Nat × Job × PollAct))
    (hinj : ∀ a ∈ acts, ∀ b ∈ acts, a.1 = b.1 → a = b) :
    (acts.filter (fun a =>
        ! memId ((acts.filter (fun b => isDelete b.2.2)).map (fun b => b.1)) a.1)) =
      acts.filter (fun a => ! isDelete a.2.2) := by
  refine List.filter_congr ?_
  intro a ha
  have key : memId ((acts.filter (fun b => isDelete b.2.2)).map (fun b => b.1)) a.1 =
      isDelete a.2.2 := by
    by_cases hd : isDelete a.2.2
    · rw [hd]
      exact (memId_iff _ _).mpr
        (List.mem_map.mpr ⟨a, List.mem_filter.mpr ⟨ha, hd⟩, rfl⟩)
    · rw [Bool.eq_false_iff.mpr hd]
      by_contra hc
      rw [Bool.not_eq_false, memId_iff] at hc
      obtain ⟨b, hb, hba⟩ := List.mem_map.mp hc
      obtain ⟨hbacts, hbdel⟩ := List.mem_filter.mp hb
      have hba2 := hinj b hbacts a ha hba
      rw [hba2] at hbdel
      exact hd hbdel
  rw [key]

theorem jobsInv_restart_fold :
    ∀ (rs : List Job) (s : AgentState), JobsInv s →
      JobsInv (rs.foldl (fun s j => add_job (requeueJob j) s) s) := by
  intro rs
  induction rs with
  | nil => intro s h; exact h
  | cons j rest ih =>
    intro s h
    simp only [List.foldl_cons]
    exact ih _ (jobsInv_add _ _ h)

theorem jobsInv_poll (env : PollEnv) (st st' : AgentState)
    (h : JobsInv st) (hp : poll_jobs env st = some st') : JobsInv st' := by
  unfold poll_jobs at hp
  split at hp
  · cases hp
    exact h
  · split at hp
    · cases hp
    · rename_i sc hscan
      cases hp
      apply jobsInv_restart_fold
      obtain ⟨h1, h2, h3⟩ := h
      have hproj := pollScan_proj env st.jobs st.files sc.1 sc.2 (by rw [hscan])
      obtain ⟨cj, cx, cn⟩ := counters_fold sc.1 { st with files := sc.2 }
      have hinj : ∀ a ∈ sc.1, ∀ b ∈ sc.1, a.1 = b.1 → a = b := by
        have hnd : (sc.1.map (fun a => a.1)).Nodup := by
          have hmm : sc.1.map (fun a => a.1) =
              (sc.1.map (fun a => (a.1, a.2.1))).map (fun p => p.1) := by
            rw [List.map_map]
            rfl
          rw [hmm, hproj]
          exact h2.imp (fun hlt => Nat.ne_of_lt hlt)
        intro a ha b hb hab
        exact List.inj_on_of_nodup_map hnd ha hb hab
      have hjobs_eq : ({ st with files := sc.2 } : AgentState).jobs = st.jobs := rfl
      have hfshape :
          st.jobs.filter (fun p =>
            ! memId ((sc.1.filter (fun a => isDelete a.2.2)).map (fun a => a.1)) p.1) =
          (sc.1.filter (fun a => ! isDelete a.2.2)).map (fun a => (a.1, a.2.1)) := by
        rw [← hproj, filter_map_pred, dels_filter sc.1 hinj]
      refine ⟨?_, ?_, ?_⟩
      · dsimp only
        rw [cn, cj, hjobs_eq, hfshape]
        simp only [List.length_map]
        have hlen := filter_length_split sc.1 (fun a => isDelete a.2.2)
        have hacts_len : sc.1.length = st.jobs.length := by
          rw [← hproj]
          simp
        rw [h1]
        omega
      · dsimp only
        rw [cj, hjobs_eq]
        exact h2.sublist ((List.filter_sublist st.jobs).map (fun (p : Nat × Job) => p.1))
      · intro p hp2
        dsimp only at hp2 ⊢
        rw [cj, hjobs_eq] at hp2
        rw [cx]
        have hmem := List.mem_of_mem_filter hp2
        exact h3 p hmem

/-- C8: after every complete `add_job`, `launch_jobs` or `poll_jobs`
operation, the `n_jobs` counter equals the number of live registry
entries (with the registry keys strictly increasing below `job_index`,
which the operations also preserve) — including the staleness-kill and
requeue paths of `poll_jobs`, which delete and re-add entries. -/
theorem n_jobs_tracks_registry (st : AgentState) (h : JobsInv st) :
    (∀ j, JobsInv (add_job j st)) ∧
    (∀ cfg now st', launch_jobs cfg now st = some st' → JobsInv st') ∧
    (∀ env st', poll_jobs env st = some st' → JobsInv st') := by
  refine ⟨fun j => jobsInv_add j st h, ?_, ?_⟩
  · intro cfg now st' hl
    exact jobsInv_launch cfg now st st' h hl
  · intro env st' hp
    exact jobsInv_poll env st st' h hp

/-- Witness for C8: the invariant holds for the empty scheduler and is
carried through an `add_job`. -/
theorem n_jobs_tracks_registry_witness :
    JobsInv (add_job jobC1 ({} : AgentState)) :=
  (n_jobs_tracks_registry ({} : AgentState)
    ⟨rfl, List.Pairwise.nil, fun p hp => absurd hp (List.not_mem_nil p)⟩).1 jobC1

theorem retry_step (m k : Nat) (hk : k < m) (st : AgentState) (h : RetryInv m k st) :
    ∃ st2, retryCycle st = some st2 ∧ RetryInv m (k + 1) st2 := by
  obtain ⟨hj, hx, hn, hr, hbt, he, hf⟩ := h
  have hbt2 : st.byType = fun _ => 0 := funext hbt
  obtain ⟨jobs, jix, nj, nrj, bt, fls, errs⟩ := st
  dsimp only at hj hx hn hr hbt2 he hf
  subst hj hx hn hr hbt2 he hf
  have hfb : decide (k + 1 > m) = false := decide_eq_false (by omega)
  by_cases hk0 : k = 0
  · subst hk0
    have hm0 : ¬ (m = 0) := by omega
    simp [retryCycle, launch_jobs, launchLoop, lookupJob, lookupCap, setJob, poll_jobs,
      pollScan, pollOne, applyFileUpd, applyCounters, isDelete, restartOf, requeueJob,
      memId, add_job, dlJob, cfgC4, envC4, recC4, hfb, hm0, RetryInv, requeuedJob, updFn]
  · simp [hk0, retryCycle, launch_jobs, launchLoop, lookupJob, lookupCap, setJob, poll_jobs,
      pollScan, pollOne, applyFileUpd, applyCounters, isDelete, restartOf, requeueJob,
      memId, add_job, dlJob, cfgC4, envC4, recC4, hfb, RetryInv, requeuedJob, updFn]

theorem retry_fatal (m : Nat) (st : AgentState) (h : RetryInv m m st) :
    ∃ st2, retryCycle st = some st2 ∧ st2.jobs = [] ∧ st2.job_index = m + 2 ∧
      st2.n_jobs = 0 ∧ st2.n_running_jobs = 0 ∧ st2.errors = ["MaxRetriesReached"] := by
  obtain ⟨hj, hx, hn, hr, hbt, he, hf⟩ := h
  have hbt2 : st.byType = fun _ => 0 := funext hbt
  obtain ⟨jobs, jix, nj, nrj, bt, fls, errs⟩ := st
  dsimp only at hj hx hn hr hbt2 he hf
  subst hj hx hn hr hbt2 he hf
  have hfb : decide (m + 1 > m) = true := decide_eq_true (by omega)
  by_cases hm0 : m = 0
  · subst hm0
    simp [retryCycle, launch_jobs, launchLoop, lookupJob, lookupCap, setJob, poll_jobs,
      pollScan, pollOne, applyFileUpd, applyCounters, isDelete, restartOf, requeueJob,
      memId, add_job, dlJob, cfgC4, envC4, recC4, hfb, updFn]
  · simp [hm0, retryCycle, launch_jobs, launchLoop, lookupJob, lookupCap, setJob, poll_jobs,
      pollScan, pollOne, applyFileUpd, applyCounters, isDelete, restartOf, requeueJob,
      memId, add_job, dlJob, cfgC4, envC4, recC4, hfb, requeuedJob, updFn]

/-- C4: in the always-stalled retry scenario with bound `m`, the job is
requeued (status `redo` under a fresh id, `n_retries` bumped) after each
of its first `m` staleness kills, and the `(m+1)`-th kill reports the
fatal `MaxRetriesReached` error and removes the job permanently without
requeueing it: the registry ends empty with `job_index = m + 2`, so
exactly `m` restarts were ever performed. -/
theorem retries_bounded (m : Nat) :
    (∀ k, k ≤ m → ∃ st, retryIter m k = some st ∧ RetryInv m k st) ∧
    (∃ st, retryIter m (m + 1) = some st ∧ st.jobs = [] ∧ st.job_index = m + 2 ∧
      st.n_jobs = 0 ∧ st.n_running_jobs = 0 ∧ st.errors = ["MaxRetriesReached"]) := by
  have part1 : ∀ k, k ≤ m → ∃ st, retryIter m k = some st ∧ RetryInv m k st := by
    intro k
    induction k with
    | zero =>
      intro _
      refine ⟨retryState m, rfl, ?_⟩
      simp [RetryInv, retryState, add_job]
    | succ k ih =>
      intro hk1
      obtain ⟨st, hst, hinv⟩ := ih (by omega)
      obtain ⟨st2, hc, hinv2⟩ := retry_step m k (by omega) st hinv
      refine ⟨st2, ?_, hinv2⟩
      rw [retryIter, hst]
      exact hc
  refine ⟨part1, ?_⟩
  obtain ⟨st, hst, hinv⟩ := part1 m (Nat.le_refl m)
  obtain ⟨st2, hc, h1, h2, h3, h4, h5⟩ := retry_fatal m st hinv
  refine ⟨st2, ?_, h1, h2, h3, h4, h5⟩
  rw [retryIter, hst]
  exact hc

/-- Witness for C4: with retry bound 1, after the second kill the job is
gone for good and the fatal error is recorded. -/
theorem retries_bounded_witness :
    ∃ st, retryIter 1 2 = some st ∧ st.jobs = [] ∧ st.job_index = 3 ∧
      st.n_jobs = 0 ∧ st.n_running_jobs = 0 ∧ st.errors = ["MaxRetriesReached"] :=
  (retries_bounded 1).2

end Agent
